import Mathlib

/-!
Verification of the learning-tutor backend heuristics (error detector,
complexity estimator, fallback response builder, response sanitizer,
request validator) and the client learning-state updates.

Strings from the JavaScript source are modelled as `List Char`; the JS
regular expressions are embedded as first-order regex ASTs matched with
Brzozowski derivatives (`.test` = existence of a matching substring),
or as bespoke deterministic scanners where the JS `replace`/`match`
endpoints matter.
-/

set_option maxRecDepth 100000

namespace Tutor

/-- The backtick character (used for fenced code blocks). -/
def btk : Char := Char.ofNat 96

/-- The single-quote character. -/
def sq : Char := Char.ofNat 39

/-- The double-quote character. -/
def dq : Char := Char.ofNat 34

/-! ## A small regex engine (Brzozowski derivatives)

Character classes are lists of inclusive ranges with a negation flag,
mirroring the JS character classes appearing in the source regexes. -/

inductive RE where
  | emp : RE
  | eps : RE
  | cls : List (Char × Char) → Bool → RE
  | cat : RE → RE → RE
  | alt : RE → RE → RE
  | star : RE → RE
deriving DecidableEq

/-- Does character `c` belong to the class (ranges `rs`, negated if `neg`)? -/
def ccMem (rs : List (Char × Char)) (neg : Bool) (c : Char) : Bool :=
  xor (rs.any fun p => decide (p.1 ≤ c) && decide (c ≤ p.2)) neg

def RE.nullable : RE → Bool
  | .emp => false
  | .eps => true
  | .cls _ _ => false
  | .cat a b => a.nullable && b.nullable
  | .alt a b => a.nullable || b.nullable
  | .star _ => true

/-- Smart concatenation (absorbs `emp`, drops `eps`). -/
def scat : RE → RE → RE
  | .emp, _ => .emp
  | .eps, b => b
  | _, .emp => .emp
  | a, .eps => a
  | a, b => .cat a b

/-- Smart alternation (absorbs `emp`, deduplicates equal branches). -/
def salt : RE → RE → RE
  | .emp, b => b
  | a, .emp => a
  | a, b => if a = b then a else .alt a b

def RE.deriv : RE → Char → RE
  | .emp, _ => .emp
  | .eps, _ => .emp
  | .cls rs neg, c => if ccMem rs neg c then .eps else .emp
  | .cat a b, c =>
      if a.nullable then salt (scat (a.deriv c) b) (b.deriv c)
      else scat (a.deriv c) b
  | .alt a b, c => salt (a.deriv c) (b.deriv c)
  | .star a, c => scat (a.deriv c) (.star a)

/-- Whole-string match. -/
def reMatch (r : RE) (s : List Char) : Bool :=
  (s.foldl RE.deriv r).nullable

/-- The class matching any character (JS `[\s\S]`). -/
def anyRE : RE := .cls [] true

/-- Existence of a matching substring anywhere — the semantics of JS
`pattern.test(s)` for a pure (backreference-free) pattern. -/
def reFind (r : RE) (s : List Char) : Bool :=
  reMatch (scat (.star anyRE) (scat r (.star anyRE))) s

def lit1 (c : Char) : RE := .cls [(c, c)] false

def litRE (s : List Char) : RE := s.foldr (fun c r => scat (lit1 c) r) .eps

/-- JS `\w`. -/
def wCls : RE := .cls [('0', '9'), ('A', 'Z'), ('_', '_'), ('a', 'z')] false

/-- JS `\d`. -/
def dCls : RE := .cls [('0', '9')] false

/-- The ranges of JS `\s` (whitespace). -/
def wsRanges : List (Char × Char) :=
  [('\t', Char.ofNat 13), (' ', ' '), (Char.ofNat 0xa0, Char.ofNat 0xa0),
   (Char.ofNat 0x1680, Char.ofNat 0x1680), (Char.ofNat 0x2000, Char.ofNat 0x200a),
   (Char.ofNat 0x2028, Char.ofNat 0x2029), (Char.ofNat 0x202f, Char.ofNat 0x202f),
   (Char.ofNat 0x205f, Char.ofNat 0x205f), (Char.ofNat 0x3000, Char.ofNat 0x3000),
   (Char.ofNat 0xfeff, Char.ofNat 0xfeff)]

/-- JS `\s`. -/
def sCls : RE := .cls wsRanges false

/-- JS `.` (anything but line terminators). -/
def dotCls : RE := .cls [('\n', '\n'), ('\r', '\r'), (Char.ofNat 0x2028, Char.ofNat 0x2029)] true

def plusRE (r : RE) : RE := scat r (.star r)

/-- `n`-fold concatenation (JS `{n}` / the mandatory part of `{n,}`). -/
def repRE (r : RE) : Nat → RE
  | 0 => .eps
  | n + 1 => scat r (repRE r n)

/-- JS `{n,}`. -/
def repAtLeast (r : RE) (n : Nat) : RE := scat (repRE r n) (.star r)

/-- JS `r?`. -/
def optRE (r : RE) : RE := salt .eps r

/-! ## Response sanitizer (`sanitizeResponse` in `aiService.js`)

The three `completeSolutionPatterns` regex literals, embedded verbatim. -/

/-- One Python body line: JS `(\s+.+\n)`. -/
def pyBodyLine : RE := scat (plusRE sCls) (scat (plusRE dotCls) (lit1 '\n'))

/-- JS `/def \w+\([^)]*\):\s*\n(\s+.+\n){5,}/` — Python function with 5+ body lines. -/
def reDefSolution : RE :=
  scat (litRE (String.toList "def "))
  (scat (plusRE wCls)
  (scat (lit1 '(')
  (scat (.star (.cls [(')', ')')] true))
  (scat (litRE (String.toList "):"))
  (scat (.star sCls)
  (scat (lit1 '\n')
  (repAtLeast pyBodyLine 5)))))))

/-- JS `/function \w+\([^)]*\)\s*\{[\s\S]{200,}\}/` — JS function with lots of code. -/
def jsFuncSolution : RE :=
  scat (litRE (String.toList "function "))
  (scat (plusRE wCls)
  (scat (lit1 '(')
  (scat (.star (.cls [(')', ')')] true))
  (scat (lit1 ')')
  (scat (.star sCls)
  (scat (lit1 '{')
  (scat (repAtLeast anyRE 200)
  (lit1 '}'))))))))

/-- JS `/public\s+(static\s+)?\w+\s+\w+\([^)]*\)\s*\{[\s\S]{200,}\}/` — Java method. -/
def javaMethodSolution : RE :=
  scat (litRE (String.toList "public"))
  (scat (plusRE sCls)
  (scat (optRE (scat (litRE (String.toList "static")) (plusRE sCls)))
  (scat (plusRE wCls)
  (scat (plusRE sCls)
  (scat (plusRE wCls)
  (scat (lit1 '(')
  (scat (.star (.cls [(')', ')')] true))
  (scat (lit1 ')')
  (scat (.star sCls)
  (scat (lit1 '{')
  (scat (repAtLeast anyRE 200)
  (lit1 '}'))))))))))))

/-- The `for..of` loop over `completeSolutionPatterns` with `.test`. -/
def hasCompleteSolution (s : List Char) : Bool :=
  reFind reDefSolution s || reFind jsFuncSolution s || reFind javaMethodSolution s

/-- Splits a string at the first occurrence of three consecutive backticks:
returns the part before and the part after them. -/
def splitTicks : List Char → Option (List Char × List Char)
  | [] => none
  | c :: cs =>
    if c = btk ∧ cs.take 2 = [btk, btk] then some ([], cs.drop 2)
    else (splitTicks cs).map (fun pr => (c :: pr.1, pr.2))

/-- The first (lazy, leftmost) match of JS `/```[\s\S]*?```/`:
text before the opener, block content, text after the closer. -/
def findFence (s : List Char) : Option (List Char × List Char × List Char) :=
  match splitTicks s with
  | none => none
  | some (pre, rest) => (splitTicks rest).map (fun cr => (pre, cr.1, cr.2))

/-- Middle of the replacement string (between its own backtick fences). -/
def phMid : List Char :=
  String.toList "\n[Complete solution removed - try writing it yourself!]\n"

/-- The replacement string `'```\n[Complete solution removed - try writing it yourself!]\n```'`. -/
def ph : List Char := btk :: btk :: btk :: (phMid ++ [btk, btk, btk])

theorem splitTicks_append : ∀ {s p r : List Char},
    splitTicks s = some (p, r) → s = p ++ btk :: btk :: btk :: r := by
  intro s
  induction s with
  | nil => intro p r h; simp [splitTicks] at h
  | cons c cs ih =>
    intro p r h
    rw [splitTicks] at h
    by_cases hc : c = btk ∧ cs.take 2 = [btk, btk]
    · rw [if_pos hc] at h
      obtain ⟨rfl, rfl⟩ : ([] : List Char) = p ∧ cs.drop 2 = r := by
        simpa using h
      obtain ⟨hcb, hct⟩ := hc
      subst hcb
      have hcs : cs = [btk, btk] ++ cs.drop 2 := by
        conv_lhs => rw [← List.take_append_drop 2 cs]
        rw [hct]
      simp [← hcs, hcs.symm]
      exact hcs
    · rw [if_neg hc] at h
      rw [Option.map_eq_some'] at h
      obtain ⟨⟨p', r'⟩, hsp, heq⟩ := h
      obtain ⟨h1, h2⟩ : c :: p' = p ∧ r' = r := by simpa using heq
      subst h1; subst h2
      have := ih hsp
      rw [this]
      simp

theorem findFence_length {s pre content rest : List Char}
    (h : findFence s = some (pre, content, rest)) : rest.length < s.length := by
  unfold findFence at h
  cases h1 : splitTicks s with
  | none => rw [h1] at h; simp at h
  | some pr =>
    obtain ⟨p, r⟩ := pr
    rw [h1] at h
    dsimp only at h
    rw [Option.map_eq_some'] at h
    obtain ⟨⟨cnt, rst⟩, h2, heq⟩ := h
    obtain ⟨e1, e2, e3⟩ : p = pre ∧ cnt = content ∧ rst = rest := by
      simpa using heq
    subst e1; subst e2; subst e3
    have l1 := splitTicks_append h1
    have l2 := splitTicks_append h2
    subst l2
    subst l1
    simp [List.length_append]
    omega

/-- JS `reply.replace(/```[\s\S]*?```/g, '```\n[...]\n```')`. -/
def replaceFenced (s : List Char) : List Char :=
  match h : findFence s with
  | none => s
  | some (pre, _, rest) => pre ++ ph ++ replaceFenced rest
termination_by s.length
decreasing_by exact findFence_length h

/-- The contents of the fenced code blocks of `s`, in order, as matched by
the same lazy global scan as the JS `replace`. -/
def fencedContents (s : List Char) : List (List Char) :=
  match h : findFence s with
  | none => []
  | some (_, content, rest) => content :: fencedContents rest
termination_by s.length
decreasing_by exact findFence_length h

theorem take_two_stable (p x y : List Char) (a b c : Char) :
    (p ++ a :: b :: c :: x).take 2 = (p ++ a :: b :: c :: y).take 2 := by
  cases p with
  | nil => simp [List.take]
  | cons d q =>
    cases q with
    | nil => simp [List.take]
    | cons e q2 => simp [List.take]

theorem splitTicks_no_btk {p : List Char} (hp : ∀ c ∈ p, c ≠ btk) (t : List Char) :
    splitTicks (p ++ btk :: btk :: btk :: t) = some (p, t) := by
  induction p with
  | nil =>
    rw [List.nil_append, splitTicks]
    simp [List.take, List.drop]
  | cons c cs ih =>
    have hc : c ≠ btk := hp c (by simp)
    rw [List.cons_append, splitTicks]
    rw [if_neg (by simp [hc])]
    rw [ih (fun d hd => hp d (by simp [hd]))]
    rfl

theorem splitTicks_stable : ∀ {s p r : List Char}, splitTicks s = some (p, r) →
    ∀ t, splitTicks (p ++ btk :: btk :: btk :: t) = some (p, t) := by
  intro s
  induction s with
  | nil => intro p r h t; simp [splitTicks] at h
  | cons c cs ih =>
    intro p r h t
    rw [splitTicks] at h
    by_cases hc : c = btk ∧ cs.take 2 = [btk, btk]
    · rw [if_pos hc] at h
      obtain ⟨rfl, rfl⟩ : ([] : List Char) = p ∧ cs.drop 2 = r := by simpa using h
      obtain ⟨hcb, _⟩ := hc
      subst hcb
      rw [List.nil_append, splitTicks]
      simp [List.take, List.drop]
    · rw [if_neg hc] at h
      rw [Option.map_eq_some'] at h
      obtain ⟨⟨p', r'⟩, hsp, heq⟩ := h
      obtain ⟨h1, h2⟩ : c :: p' = p ∧ r' = r := by simpa using heq
      subst h1; subst h2
      rw [List.cons_append, splitTicks]
      have hcs := splitTicks_append hsp
      have hcond : ¬ (c = btk ∧ (p' ++ btk :: btk :: btk :: t).take 2 = [btk, btk]) := by
        rintro ⟨hcb, htake⟩
        apply hc
        refine ⟨hcb, ?_⟩
        rw [hcs, take_two_stable p' r' t btk btk btk]
        exact htake
      rw [if_neg hcond]
      rw [ih hsp t]
      rfl

theorem phMid_no_btk : ∀ c ∈ phMid, c ≠ btk := by decide

theorem findFence_ph {s pre content rest : List Char}
    (h : findFence s = some (pre, content, rest)) (R : List Char) :
    findFence (pre ++ ph ++ R) = some (pre, phMid, R) := by
  unfold findFence at h
  cases h1 : splitTicks s with
  | none => rw [h1] at h; simp at h
  | some pr =>
    obtain ⟨p, r⟩ := pr
    rw [h1] at h
    dsimp only at h
    rw [Option.map_eq_some'] at h
    obtain ⟨⟨cnt, rst⟩, h2, heq⟩ := h
    obtain ⟨e1, e2, e3⟩ : p = pre ∧ cnt = content ∧ rst = rest := by
      simpa using heq
    subst e1; subst e2; subst e3
    have hs1 := splitTicks_stable h1 (phMid ++ btk :: btk :: btk :: R)
    have hs2 : splitTicks (phMid ++ btk :: btk :: btk :: R) = some (phMid, R) :=
      splitTicks_no_btk phMid_no_btk R
    have hshape : p ++ ph ++ R = p ++ btk :: btk :: btk :: (phMid ++ btk :: btk :: btk :: R) := by
      simp [ph, List.append_assoc]
    rw [hshape]
    unfold findFence
    rw [hs1]
    dsimp only
    rw [hs2]
    rfl

theorem replaceFenced_eq_none {s : List Char} (h : findFence s = none) :
    replaceFenced s = s := by
  unfold replaceFenced
  split
  · rfl
  · rename_i pre content rest heq
    rw [h] at heq
    exact Option.noConfusion heq

theorem replaceFenced_eq_some {s pre content rest : List Char}
    (h : findFence s = some (pre, content, rest)) :
    replaceFenced s = pre ++ ph ++ replaceFenced rest := by
  rw [replaceFenced.eq_def]
  split
  · rename_i heq
    rw [h] at heq
    exact Option.noConfusion heq
  · rename_i pre' content' rest' heq
    rw [h] at heq
    obtain ⟨e1, e2, e3⟩ : pre = pre' ∧ content = content' ∧ rest = rest' := by
      simpa using heq
    subst e1; subst e2; subst e3
    rfl

theorem fencedContents_eq_none {s : List Char} (h : findFence s = none) :
    fencedContents s = [] := by
  unfold fencedContents
  split
  · rfl
  · rename_i pre content rest heq
    rw [h] at heq
    exact Option.noConfusion heq

theorem fencedContents_eq_some {s pre content rest : List Char}
    (h : findFence s = some (pre, content, rest)) :
    fencedContents s = content :: fencedContents rest := by
  rw [fencedContents.eq_def]
  split
  · rename_i heq
    rw [h] at heq
    exact Option.noConfusion heq
  · rename_i pre' content' rest' heq
    rw [h] at heq
    obtain ⟨e1, e2, e3⟩ : pre = pre' ∧ content = content' ∧ rest = rest' := by
      simpa using heq
    subst e1; subst e2; subst e3
    rfl

theorem replaceFenced_idem_aux : ∀ (n : Nat) (s : List Char), s.length ≤ n →
    replaceFenced (replaceFenced s) = replaceFenced s := by
  intro n
  induction n with
  | zero =>
    intro s hs
    have hnil : s = [] := List.length_eq_zero.mp (Nat.le_zero.mp hs)
    subst hnil
    have h : findFence ([] : List Char) = none := by rfl
    rw [replaceFenced_eq_none h, replaceFenced_eq_none h]
  | succ n ih =>
    intro s hs
    cases hf : findFence s with
    | none => rw [replaceFenced_eq_none hf, replaceFenced_eq_none hf]
    | some t =>
      obtain ⟨pre, content, rest⟩ := t
      rw [replaceFenced_eq_some hf]
      have hrest : rest.length ≤ n := by
        have := findFence_length hf
        omega
      have hR := ih rest hrest
      have hfp := findFence_ph hf (replaceFenced rest)
      rw [replaceFenced_eq_some hfp, hR]

/-- `replaceFenced` is idempotent. -/
theorem replaceFenced_idem (s : List Char) :
    replaceFenced (replaceFenced s) = replaceFenced s :=
  replaceFenced_idem_aux s.length s le_rfl

theorem fencedContents_replace_aux : ∀ (n : Nat) (s : List Char), s.length ≤ n →
    fencedContents (replaceFenced s) = (fencedContents s).map (fun _ => phMid) := by
  intro n
  induction n with
  | zero =>
    intro s hs
    have hnil : s = [] := List.length_eq_zero.mp (Nat.le_zero.mp hs)
    subst hnil
    have h : findFence ([] : List Char) = none := by rfl
    rw [replaceFenced_eq_none h, fencedContents_eq_none h]
    rfl
  | succ n ih =>
    intro s hs
    cases hf : findFence s with
    | none =>
      rw [replaceFenced_eq_none hf, fencedContents_eq_none hf]
      rfl
    | some t =>
      obtain ⟨pre, content, rest⟩ := t
      rw [replaceFenced_eq_some hf]
      have hrest : rest.length ≤ n := by
        have := findFence_length hf
        omega
      have hfp := findFence_ph hf (replaceFenced rest)
      rw [fencedContents_eq_some hfp, fencedContents_eq_some hf]
      rw [List.map_cons, ih rest hrest]

/-- After redaction, every fenced block holds exactly the placeholder text. -/
theorem fencedContents_replace (s : List Char) :
    fencedContents (replaceFenced s) = (fencedContents s).map (fun _ => phMid) :=
  fencedContents_replace_aux s.length s le_rfl

/-- An LLM reply object: the `reply` field (absent or a string), plus the
other fields, which `sanitizeResponse` copies unchanged. -/
structure LLMResponse where
  reply? : Option (List Char)
  extra : List (List Char)
deriving DecidableEq

/-- `sanitizeResponse` from `aiService.js`: if any complete-solution pattern
tests true on a (truthy) `reply`, replace every fenced code block by the
placeholder; otherwise return the object unchanged. -/
def sanitizeResponse (r : LLMResponse) : LLMResponse :=
  match r.reply? with
  | none => r
  | some s =>
    if s = [] then r
    else if hasCompleteSolution s then { r with reply? := some (replaceFenced s) }
    else r

/-- A reply whose only code is a 3-line syntax example in a fenced block. -/
def exThreeLine : List Char :=
  String.toList "Use a loop like this:\n```python\nfor x in items:\n    print(x)\n    total = total + x\n```\nThat is the pattern."

/-- A reply leaking a complete Python solution (6 body lines) in a fenced block. -/
def exRedact : List Char :=
  String.toList "Here is the answer:\n```python\ndef solve(n):\n    a = 0\n    b = 1\n    for i in range(n):\n        a = b\n        b = a + b\n    return a\n```\nHope that helps!"

theorem sanitizeResponse_none {r : LLMResponse} (h : r.reply? = none) :
    sanitizeResponse r = r := by
  unfold sanitizeResponse
  rw [h]

theorem sanitizeResponse_some {r : LLMResponse} {s : List Char} (h : r.reply? = some s) :
    sanitizeResponse r = if s = [] then r
      else if hasCompleteSolution s then { r with reply? := some (replaceFenced s) }
      else r := by
  unfold sanitizeResponse
  rw [h]

theorem replaceFenced_ne_nil {s : List Char} (hs : s ≠ []) : replaceFenced s ≠ [] := by
  cases hf : findFence s with
  | none => rw [replaceFenced_eq_none hf]; exact hs
  | some t =>
    obtain ⟨pre, content, rest⟩ := t
    rw [replaceFenced_eq_some hf]
    simp [ph]

/-- C1: if no complete-solution pattern tests true on the reply text, the
reply object is returned unchanged (in particular, a reply holding only a
3-line syntax example in a fenced block passes through verbatim); if some
pattern tests true, the `reply` becomes the global fenced-block replacement,
after which every fenced block holds exactly the redaction placeholder text,
and all other fields are untouched. -/
theorem C1_sanitizer_policy (r : LLMResponse) (s : List Char) (h : r.reply? = some s) :
    (hasCompleteSolution s = false → sanitizeResponse r = r) ∧
    (hasCompleteSolution s = true →
      (sanitizeResponse r).reply? = some (replaceFenced s) ∧
      (sanitizeResponse r).extra = r.extra ∧
      fencedContents (replaceFenced s) = (fencedContents s).map (fun _ => phMid)) ∧
    hasCompleteSolution exThreeLine = false := by
  refine ⟨?_, ?_, by decide⟩
  · intro hfalse
    rw [sanitizeResponse_some h]
    by_cases hnil : s = []
    · rw [if_pos hnil]
    · rw [if_neg hnil, hfalse]
      simp
  · intro htrue
    have hnil : s ≠ [] := by
      intro hs
      subst hs
      exact absurd htrue (by decide)
    rw [sanitizeResponse_some h, if_neg hnil, htrue]
    refine ⟨rfl, rfl, fencedContents_replace s⟩

/-- Witness for C1 at concrete inputs: the solution-leaking reply is redacted
(and its single fenced block becomes the placeholder), while the 3-line
example reply is returned unchanged. -/
theorem C1_sanitizer_policy_witness :
    (sanitizeResponse ⟨some exRedact, []⟩).reply? = some (replaceFenced exRedact) ∧
    fencedContents (replaceFenced exRedact) = [phMid] ∧
    sanitizeResponse ⟨some exThreeLine, []⟩ = ⟨some exThreeLine, []⟩ := by
  have hmain := C1_sanitizer_policy ⟨some exRedact, []⟩ exRedact rfl
  have htrue : hasCompleteSolution exRedact = true := by decide
  have h2 := hmain.2.1 htrue
  refine ⟨h2.1, ?_, ?_⟩
  · rw [h2.2.2]
    have hf1 : findFence exRedact =
        some (String.toList "Here is the answer:\n",
          String.toList "python\ndef solve(n):\n    a = 0\n    b = 1\n    for i in range(n):\n        a = b\n        b = a + b\n    return a\n",
          String.toList "\nHope that helps!") := by decide
    have hf2 : findFence (String.toList "\nHope that helps!") = none := by decide
    rw [fencedContents_eq_some hf1, fencedContents_eq_none hf2]
    rfl
  · exact (C1_sanitizer_policy ⟨some exThreeLine, []⟩ exThreeLine rfl).1 (by decide)

/-- C2: the response sanitizer is idempotent: sanitizing twice gives the same
object as sanitizing once, for every reply object. -/
theorem C2_sanitize_idempotent (r : LLMResponse) :
    sanitizeResponse (sanitizeResponse r) = sanitizeResponse r := by
  cases hr : r.reply? with
  | none =>
    have h1 := sanitizeResponse_none hr
    rw [h1, h1]
  | some s =>
    by_cases hnil : s = []
    · have h1 : sanitizeResponse r = r := by
        rw [sanitizeResponse_some hr, if_pos hnil]
      rw [h1, h1]
    · by_cases hcs : hasCompleteSolution s
      · have h1 : sanitizeResponse r = { r with reply? := some (replaceFenced s) } := by
          rw [sanitizeResponse_some hr, if_neg hnil, hcs]
          simp
        rw [h1]
        rw [sanitizeResponse_some
          (show ({ r with reply? := some (replaceFenced s) } : LLMResponse).reply? =
            some (replaceFenced s) from rfl)]
        rw [if_neg (replaceFenced_ne_nil hnil)]
        by_cases hcs2 : hasCompleteSolution (replaceFenced s)
        · rw [hcs2]
          simp [replaceFenced_idem s]
        · simp [hcs2]
      · have h1 : sanitizeResponse r = r := by
          rw [sanitizeResponse_some hr, if_neg hnil]
          simp [hcs]
        rw [h1, h1]

/-! ## Request validator (`validators.js`)

Request fields are JS values; `.toLowerCase()` on a truthy non-string
throws, which the embedding surfaces as `Except.error`. -/

/-- Shorthand for string literals as character lists. -/
def tl (s : String) : List Char := s.toList

inductive JSValue where
  | undef : JSValue
  | null : JSValue
  | bool : Bool → JSValue
  | num : Int → JSValue
  | str : List Char → JSValue
deriving DecidableEq

/-- JS truthiness of a primitive value. -/
def JSValue.truthy : JSValue → Bool
  | .undef => false
  | .null => false
  | .bool b => b
  | .num n => decide (n ≠ 0)
  | .str s => decide (s ≠ [])

/-- `v.toLowerCase()`: succeeds only on strings, otherwise a TypeError. -/
def jsToLowerCase : JSValue → Except Unit (List Char)
  | .str s => .ok (s.map Char.toLower)
  | _ => .error ()

/-- JS whitespace test (the `\s` class). -/
def jsIsWs (c : Char) : Bool := ccMem wsRanges false c

/-- JS `String.prototype.trim`. -/
def jsTrim (s : List Char) : List Char :=
  ((s.dropWhile jsIsWs).reverse.dropWhile jsIsWs).reverse

/-- Value of the longest leading decimal-digit run. -/
def digitsVal : List Char → Option Nat → Option Nat
  | [], acc => acc
  | c :: cs, acc =>
    if c.isDigit then digitsVal cs (some ((acc.getD 0) * 10 + (c.toNat - 48)))
    else acc

/-- JS `String(v)` for primitives. -/
def jsToString : JSValue → List Char
  | .undef => tl "undefined"
  | .null => tl "null"
  | .bool b => if b then tl "true" else tl "false"
  | .num n => (toString n).toList
  | .str s => s

/-- JS `parseInt(v)` (radix 10 after `ToString`; `none` is `NaN`). -/
def jsParseInt (v : JSValue) : Option Int :=
  let s := jsTrim (jsToString v)
  match s with
  | '-' :: rest => (digitsVal rest none).map (fun n => -(n : Int))
  | '+' :: rest => (digitsVal rest none).map (fun n => (n : Int))
  | rest => (digitsVal rest none).map (fun n => (n : Int))

def SUPPORTED_LANGUAGES : List (List Char) := [tl "python", tl "c", tl "cpp", tl "java"]

def SUPPORTED_LEVELS : List (List Char) := [tl "basic", tl "moderate", tl "complex"]

def MAX_HINT_LEVEL : Int := 5

/-- An analyze-request body; absent fields are `undef`. -/
structure AnalyzeBody where
  code : JSValue
  language : JSValue
  level : JSValue
  hintLevel : JSValue
deriving DecidableEq

structure ValidationResult where
  valid : Bool
  errors : List (List Char)
deriving DecidableEq

/-- The `code` checks of `validateAnalyzeRequest` (required / string / non-empty). -/
def codeErrors (v : JSValue) : List (List Char) :=
  if !v.truthy then [tl "code is required"]
  else match v with
    | .str s => if (jsTrim s).length = 0 then [tl "code cannot be empty"] else []
    | _ => [tl "code must be a string"]

/-- The `language` checks (`body.language.toLowerCase()` may throw). -/
def languageErrors (v : JSValue) : Except Unit (List (List Char)) :=
  if !v.truthy then .ok [tl "language is required"]
  else match jsToLowerCase v with
    | .error e => .error e
    | .ok l =>
      if SUPPORTED_LANGUAGES.contains l then .ok []
      else .ok [tl "language must be one of: python, c, cpp, java"]

/-- The `level` checks (`body.level.toLowerCase()` may throw). -/
def levelErrors (v : JSValue) : Except Unit (List (List Char)) :=
  if !v.truthy then .ok [tl "level is required"]
  else match jsToLowerCase v with
    | .error e => .error e
    | .ok l =>
      if SUPPORTED_LEVELS.contains l then .ok []
      else .ok [tl "level must be one of: basic, moderate, complex"]

/-- The `hintLevel` check: only when present, `parseInt` must land in [1, 5]. -/
def hintLevelErrors (v : JSValue) : List (List Char) :=
  if v ≠ .undef then
    match jsParseInt v with
    | none => [tl "hintLevel must be between 1 and 5"]
    | some h => if h < 1 ∨ h > MAX_HINT_LEVEL then [tl "hintLevel must be between 1 and 5"] else []
  else []

/-- `validateAnalyzeRequest` from `validators.js`: the four field checks in
source order, with the two possible TypeErrors propagated. -/
def validateAnalyzeRequest (body : AnalyzeBody) : Except Unit ValidationResult :=
  match languageErrors body.language with
  | .error e => .error e
  | .ok e2 =>
    match levelErrors body.level with
    | .error e => .error e
    | .ok e3 =>
      let errors := codeErrors body.code ++ e2 ++ e3 ++ hintLevelErrors body.hintLevel
      .ok { valid := errors.length == 0, errors := errors }

/-- The empty request object `{}`. -/
def emptyBody : AnalyzeBody := ⟨.undef, .undef, .undef, .undef⟩

/-- The request `{code:"x", language:"python", level:"basic", hintLevel:3}`. -/
def goodBody : AnalyzeBody := ⟨.str (tl "x"), .str (tl "python"), .str (tl "basic"), .num 3⟩

/-- C3 counterexample: `validateAnalyzeRequest({})` reports exactly THREE
missing-field messages (code, language, level) — `hintLevel` is optional and
absent, so no fourth message is produced, contradicting the claimed four. -/
theorem C3_counterexample :
    validateAnalyzeRequest emptyBody =
      .ok ⟨false, [tl "code is required", tl "language is required", tl "level is required"]⟩ ∧
    [tl "code is required", tl "language is required", tl "level is required"].length = 3 :=
  ⟨rfl, rfl⟩

/-- C3 amended: `validateAnalyzeRequest({})` returns valid=false with exactly
the three expected missing-field messages (hintLevel, being optional, adds
none), and the well-formed request returns valid=true with no errors. -/
theorem C3_validator_values :
    validateAnalyzeRequest emptyBody =
      .ok ⟨false, [tl "code is required", tl "language is required", tl "level is required"]⟩ ∧
    validateAnalyzeRequest goodBody = .ok ⟨true, []⟩ :=
  ⟨rfl, rfl⟩

/-- C4 counterexample: a request whose `language` field is the boolean `true`
makes `validateAnalyzeRequest` throw (`true.toLowerCase` is not a function),
refuting "never throws for unexpected field types". -/
theorem C4_counterexample :
    validateAnalyzeRequest ⟨.str (tl "x"), .bool true, .str (tl "basic"), .undef⟩ = .error () :=
  rfl

theorem languageErrors_ok {v : JSValue} (h : v.truthy = true → ∃ s, v = .str s) :
    ∃ l, languageErrors v = .ok l := by
  by_cases ht : v.truthy
  · obtain ⟨s, hs⟩ := h ht
    subst hs
    simp [languageErrors, ht, jsToLowerCase]
    split
    · exact ⟨[], rfl⟩
    · exact ⟨_, rfl⟩
  · refine ⟨[tl "language is required"], ?_⟩
    simp [languageErrors, ht]

theorem levelErrors_ok {v : JSValue} (h : v.truthy = true → ∃ s, v = .str s) :
    ∃ l, levelErrors v = .ok l := by
  by_cases ht : v.truthy
  · obtain ⟨s, hs⟩ := h ht
    subst hs
    simp [levelErrors, ht, jsToLowerCase]
    split
    · exact ⟨[], rfl⟩
    · exact ⟨_, rfl⟩
  · refine ⟨[tl "level is required"], ?_⟩
    simp [levelErrors, ht]

/-- C4 amended: for every request object whose `language` and `level` fields
are each falsy or strings (the `code` and `hintLevel` fields may have any
primitive type, including numbers and booleans), `validateAnalyzeRequest`
terminates normally with a `{valid, errors}` record whose `valid` flag is the
emptiness of `errors`; the embedding is purely functional, so the argument is
not mutated. A truthy non-string `language`/`level` (e.g. the boolean `true`)
instead throws, per the counterexample. -/
theorem C4_validator_total (body : AnalyzeBody)
    (hlang : body.language.truthy = true → ∃ s, body.language = .str s)
    (hlev : body.level.truthy = true → ∃ s, body.level = .str s) :
    ∃ res : ValidationResult, validateAnalyzeRequest body = .ok res ∧
      res.valid = (res.errors.length == 0) := by
  obtain ⟨l2, h2⟩ := languageErrors_ok hlang
  obtain ⟨l3, h3⟩ := levelErrors_ok hlev
  refine ⟨⟨(codeErrors body.code ++ l2 ++ l3 ++ hintLevelErrors body.hintLevel).length == 0,
           codeErrors body.code ++ l2 ++ l3 ++ hintLevelErrors body.hintLevel⟩, ?_, rfl⟩
  unfold validateAnalyzeRequest
  rw [h2, h3]

/-- Witness for C4 at a request with a numeric `code`, a capitalised string
`language`, a falsy boolean `level`, and a boolean `hintLevel`: no throw. -/
theorem C4_validator_total_witness :
    ∃ res, validateAnalyzeRequest ⟨.num 5, .str (tl "Python"), .bool false, .bool true⟩ = .ok res ∧
      res.valid = (res.errors.length == 0) :=
  C4_validator_total ⟨.num 5, .str (tl "Python"), .bool false, .bool true⟩
    (fun _ => ⟨tl "Python", rfl⟩)
    (fun h => by simp [JSValue.truthy] at h)

/-! ## Hint progressions (`getHintForError` / `getGenericHint` in `aiService.js`) -/

def syntaxHintProgression : List (List Char) :=
  [tl "Look carefully at the end of your lines...",
   tl "Some statements need specific punctuation to end properly.",
   tl "Check if you're missing any required symbols after your statements.",
   tl "In this language, certain keywords require specific characters afterward.",
   tl "Look for missing semicolons, colons, or brackets at the end of statements."]

def logicHintProgression : List (List Char) :=
  [tl "Think about what your code actually does vs. what you want it to do.",
   tl "Walk through your code line by line - what value does each variable have?",
   tl "Consider: is there a difference between assigning a value and comparing values?",
   tl "Check your operators carefully - are you using the right one for the job?",
   tl "You might be using a single equals when you need a double equals, or vice versa."]

def typoHintProgression : List (List Char) :=
  [tl "Read your code out loud - does everything sound right?",
   tl "Check your spelling of function and variable names.",
   tl "Compare your keywords with the official documentation spelling.",
   tl "Look for common letter swaps in your keywords.",
   tl "There's a misspelling - check words that look similar to common keywords."]

def structureHintProgression : List (List Char) :=
  [tl "Think about what pieces every program in this language needs.",
   tl "Most programs need a starting point - where does yours begin?",
   tl "Check if your code has all the required components for this language.",
   tl "In this language, there's a specific function that runs first.",
   tl "You may be missing the main function or class structure."]

/-- `hintProgressions[error.type] || hintProgressions.logic`. -/
def hintProgressionFor (t : List Char) : List (List Char) :=
  if t = tl "syntax" then syntaxHintProgression
  else if t = tl "logic" then logicHintProgression
  else if t = tl "typo" then typoHintProgression
  else if t = tl "structure" then structureHintProgression
  else logicHintProgression

/-- JS array indexing: out-of-range (including negative) gives `undefined`. -/
def jsIndex (l : List (List Char)) (i : Int) : Option (List Char) :=
  if 0 ≤ i ∧ i < l.length then l[i.toNat]? else none

/-- `getHintForError` from `aiService.js`: `hints[Math.min(hintLevel - 1, hints.length - 1)]`. -/
def getHintForError (errType : List Char) (hintLevel : Int) : Option (List Char) :=
  jsIndex (hintProgressionFor errType)
    (min (hintLevel - 1) (((hintProgressionFor errType).length : Int) - 1))

def genericHintList : List (List Char) :=
  [tl "Start by reading your code from the top. Does each line make sense?",
   tl "Think about the inputs and outputs. What goes in? What should come out?",
   tl "Consider edge cases. What happens with empty input? Very large numbers?",
   tl "Trace through your code with a specific example. Does it produce the right result?",
   tl "Break the problem into smaller steps. Which step isn't working correctly?"]

/-- `getGenericHint` from `aiService.js`. -/
def getGenericHint (hintLevel : Int) : Option (List Char) :=
  jsIndex genericHintList (min (hintLevel - 1) ((genericHintList.length : Int) - 1))

/-- C6: for every error type string and every hintLevel in [0, 100], both hint
functions return a value (no exception: a JS out-of-range index reads as
`undefined`, it does not throw), the relevant progression has 5 entries, and
for hintLevel ≥ 5 the clamp `min(hintLevel-1, length-1)` selects the final,
most direct entry of the progression. -/
theorem C6_hint_clamp (t : List Char) (h : Int) (h0 : 0 ≤ h) (h100 : h ≤ 100) :
    (hintProgressionFor t).length = 5 ∧
    (∃ r, getHintForError t h = r) ∧
    (∃ g, getGenericHint h = g) ∧
    (5 ≤ h →
      getHintForError t h = (hintProgressionFor t)[4]? ∧
      getGenericHint h = genericHintList[4]?) := by
  have hlen : (hintProgressionFor t).length = 5 := by
    unfold hintProgressionFor
    split
    · rfl
    · split
      · rfl
      · split
        · rfl
        · split
          · rfl
          · rfl
  refine ⟨hlen, ⟨_, rfl⟩, ⟨_, rfl⟩, fun h5 => ⟨?_, ?_⟩⟩
  · unfold getHintForError
    have hmin : min (h - 1) (((hintProgressionFor t).length : Int) - 1) = 4 := by
      rw [hlen]
      have : ((5 : Nat) : Int) - 1 = 4 := by norm_num
      rw [this]
      exact min_eq_right (by omega)
    rw [hmin]
    unfold jsIndex
    rw [if_pos ⟨by norm_num, by rw [hlen]; norm_num⟩]
    rfl
  · unfold getGenericHint
    have hmin : min (h - 1) ((genericHintList.length : Int) - 1) = 4 := by
      have : ((genericHintList.length : Nat) : Int) - 1 = 4 := by rfl
      rw [this]
      exact min_eq_right (by omega)
    rw [hmin]
    unfold jsIndex
    rw [if_pos ⟨by norm_num, by decide⟩]
    rfl

/-! ## Bracket balance (`checkBracketBalance` in `errorDetector.js`) -/

/-- Splits at the first occurrence of `q`: part before and part after it. -/
def splitAtChar (q : Char) : List Char → Option (List Char × List Char)
  | [] => none
  | c :: cs =>
    if c = q then some ([], cs)
    else (splitAtChar q cs).map (fun pr => (c :: pr.1, pr.2))

/-- The worker for `stripQuoted`: the fuel (at least the string length, per
the wrapper) makes the skip-ahead recursion structural. -/
def stripQuotedF : Nat → List Char → List Char
  | 0, s => s
  | _ + 1, [] => []
  | n + 1, c :: cs =>
    if c = dq then
      match splitAtChar dq cs with
      | some pr => dq :: dq :: stripQuotedF n pr.2
      | none => c :: stripQuotedF n cs
    else if c = sq then
      match splitAtChar sq cs with
      | some pr => dq :: dq :: stripQuotedF n pr.2
      | none => c :: stripQuotedF n cs
    else c :: stripQuotedF n cs

/-- The `checkBracketBalance` pre-pass
`code.replace(/"[^"]*"|'[^']*'/g, '""')`: each quoted span (either quote
kind, first closing quote ends it) becomes two double quotes. -/
def stripQuoted (s : List Char) : List Char := stripQuotedF s.length s

/-- `pairs = { '(': ')', '[': ']', '{': '}' }`. -/
def pairOf (c : Char) : Option Char :=
  if c = '(' then some ')'
  else if c = '[' then some ']'
  else if c = '{' then some '}'
  else none

/-- `Object.values(pairs).includes(char)`. -/
def isCloser (c : Char) : Bool := c = ')' ∨ c = ']' ∨ c = '}'

/-- Outcome of the bracket scan, carrying the data of the JS result object:
`balanced:true`, or `balanced:false` with the message kind and its chars. -/
inductive BalanceResult where
  | balanced : BalanceResult
  | unexpected (found : Char) : BalanceResult
  | mismatched (expected found : Char) : BalanceResult
  | unclosed (openers : List Char) : BalanceResult
deriving DecidableEq

/-- The character-by-character stack scan of `checkBracketBalance` (stack
top at the head; the JS message lists unclosed openers bottom-first). -/
def scanBrackets : List Char → List Char → BalanceResult
  | [], stack => if stack = [] then .balanced else .unclosed stack.reverse
  | c :: cs, stack =>
    match pairOf c with
    | some _ => scanBrackets cs (c :: stack)
    | none =>
      if isCloser c then
        match stack with
        | [] => .unexpected c
        | o :: rest =>
          if pairOf o = some c then scanBrackets cs rest
          else .mismatched ((pairOf o).getD ' ') c
      else scanBrackets cs stack

/-- `checkBracketBalance` from `errorDetector.js`. -/
def checkBracketBalance (code : List Char) : BalanceResult :=
  scanBrackets (stripQuoted code) []

/-- The bracket characters of a string, in order. -/
def extractBrackets (s : List Char) : List Char :=
  s.filter (fun c => (pairOf c).isSome || isCloser c)

/-! ## Complexity analyzer (`complexityAnalyzer.js`) -/

/-- One global-replace pass turning `q[^q]*q` into two `q`s (the shape of
each `removeStrings` pass); fuel ≥ length makes it structural. -/
def replacePairF : Nat → Char → List Char → List Char
  | 0, _, s => s
  | _ + 1, _, [] => []
  | n + 1, q, c :: cs =>
    if c = q then
      match splitAtChar q cs with
      | some pr => q :: q :: replacePairF n q pr.2
      | none => c :: replacePairF n q cs
    else c :: replacePairF n q cs

def replacePair (q : Char) (s : List Char) : List Char := replacePairF s.length q s

/-- `removeStrings`: double-quoted, then single-quoted, then template
literals, each span collapsed to an empty pair of quotes. -/
def removeStrings (s : List Char) : List Char :=
  replacePair btk (replacePair sq (replacePair dq s))

def isWordChar (c : Char) : Bool :=
  ccMem [('0', '9'), ('A', 'Z'), ('_', '_'), ('a', 'z')] false c

/-- Case-insensitive literal match (the `i` flag); returns the remainder. -/
def matchCI : List Char → List Char → Option (List Char)
  | [], rest => some rest
  | _ :: _, [] => none
  | k :: ks, c :: cs => if c.toLower = k then matchCI ks cs else none

/-- Case-sensitive literal match; returns the remainder. -/
def matchCS : List Char → List Char → Option (List Char)
  | [], rest => some rest
  | _ :: _, [] => none
  | k :: ks, c :: cs => if c = k then matchCS ks cs else none

def dropWs (s : List Char) : List Char := s.dropWhile jsIsWs

/-- `kw\s*\(` at the current position (for `/\b(for)\s*\(/gi` etc.). -/
def matchLoopHead (kw : List Char) (s : List Char) : Option (List Char) :=
  match matchCI kw s with
  | none => none
  | some rest =>
    match dropWs rest with
    | '(' :: rest2 => some rest2
    | _ => none

/-- Counts matches of a word-boundary-anchored pattern, JS `g`-scan style:
try at each position (when the previous character is not a word character),
resume after each match. All patterns used here end in `(` or `{`, both
non-word, so the post-match context is represented by `'('`. -/
def countBoundF (f : List Char → Option (List Char)) : Nat → Option Char → List Char → Nat
  | 0, _, _ => 0
  | _ + 1, _, [] => 0
  | n + 1, prev, c :: cs =>
    let boundary := match prev with
      | none => true
      | some p => !isWordChar p
    if boundary then
      match f (c :: cs) with
      | some rest => 1 + countBoundF f n (some '(') rest
      | none => countBoundF f n (some c) cs
    else countBoundF f n (some c) cs

def countLoopHead (kw : List Char) (s : List Char) : Nat :=
  countBoundF (matchLoopHead kw) s.length none s

/-- `(for|while)` case-insensitively, alternation order as written. -/
def matchAlt2 (s : List Char) : Option (List Char) :=
  match matchCI (tl "for") s with
  | some r => some r
  | none => matchCI (tl "while") s

/-- `(for|while)\s*\(` at the current position (no word boundary). -/
def innerHeadAt (s : List Char) : Option (List Char) :=
  match matchAlt2 s with
  | none => none
  | some r =>
    match dropWs r with
    | '(' :: r2 => some r2
    | _ => none

/-- The greedy `[^}]*(for|while)\s*\(` tail of the nested-loop regex: the
last inner loop head before the first `}` (backtracking from the longest
`[^}]*`). Returns the remainder after the inner `(`. -/
def lastInnerHeadF : Nat → List Char → Option (List Char) → Option (List Char)
  | 0, _, acc => acc
  | _ + 1, [], acc => acc
  | n + 1, c :: cs, acc =>
    if c = '}' then acc
    else lastInnerHeadF n cs
      (match innerHeadAt (c :: cs) with
       | some r => some r
       | none => acc)

/-- `/(for|while)\s*\([^)]*\)\s*\{[^}]*(for|while)\s*\(/gi` at the current
position. -/
def tryNested (s : List Char) : Option (List Char) :=
  match matchAlt2 s with
  | none => none
  | some r1 =>
    match dropWs r1 with
    | '(' :: r2 =>
      match r2.dropWhile (fun c => c ≠ ')') with
      | ')' :: r4 =>
        match dropWs r4 with
        | '{' :: r5 => lastInnerHeadF r5.length r5 none
        | _ => none
      | _ => none
    | _ => none

/-- Unanchored `g`-scan match counting (no word boundary). -/
def countPatF (f : List Char → Option (List Char)) : Nat → List Char → Nat
  | 0, _ => 0
  | _ + 1, [] => 0
  | n + 1, c :: cs =>
    match f (c :: cs) with
    | some rest => 1 + countPatF f n rest
    | none => countPatF f n cs

def countPat (f : List Char → Option (List Char)) (s : List Char) : Nat :=
  countPatF f s.length s

/-- `/\/=\s*2|\/\s*2|>>=\s*1/` at the current position. -/
def tryHalving : List Char → Option (List Char)
  | '/' :: '=' :: r2 =>
    (match dropWs r2 with
     | '2' :: r3 => some r3
     | _ => none)
  | '/' :: r1 =>
    (match dropWs r1 with
     | '2' :: r3 => some r3
     | _ => none)
  | '>' :: '>' :: '=' :: r =>
    (match dropWs r with
     | '1' :: r3 => some r3
     | _ => none)
  | _ => none

/-- `/\*=\s*2|\*\s*2|<<=\s*1/` at the current position. -/
def tryMultiply : List Char → Option (List Char)
  | '*' :: '=' :: r2 =>
    (match dropWs r2 with
     | '2' :: r3 => some r3
     | _ => none)
  | '*' :: r1 =>
    (match dropWs r1 with
     | '2' :: r3 => some r3
     | _ => none)
  | '<' :: '<' :: '=' :: r =>
    (match dropWs r with
     | '1' :: r3 => some r3
     | _ => none)
  | _ => none

structure LoopPatterns where
  simpleLoops : Nat
  nestedLoops : Nat
  halvingLoops : Nat
  multiplyingLoops : Nat
deriving DecidableEq

/-- `detectLoopPatterns` from `complexityAnalyzer.js` (`Math.max(0, total -
nested)` is Nat truncated subtraction). -/
def detectLoopPatterns (code : List Char) : LoopPatterns :=
  let totalLoops := countLoopHead (tl "for") code + countLoopHead (tl "while") code
  let nested := countPat tryNested code
  { simpleLoops := totalLoops - nested
    nestedLoops := nested
    halvingLoops := countPat tryHalving code
    multiplyingLoops := countPat tryMultiply code }

/-- `/def\s+(\w+)\s*\([^)]*\):/` at the current position: the captured
function name and the remainder after the match. -/
def tryPyDef (s : List Char) : Option (List Char × List Char) :=
  match matchCS (tl "def") s with
  | none => none
  | some r1 =>
    let r2 := dropWs r1
    if r2.length = r1.length then none
    else
      let name := r2.takeWhile isWordChar
      if name = [] then none
      else
        match dropWs (r2.drop name.length) with
        | '(' :: r4 =>
          (match r4.dropWhile (fun c => c ≠ ')') with
           | ')' :: ':' :: r6 => some (name, r6)
           | _ => none)
        | _ => none

/-- `/\b\w+\s+(\w+)\s*\([^)]*\)\s*\{/` at the current position (boundary
checked by the caller): captured name and remainder. -/
def tryCFunc (s : List Char) : Option (List Char × List Char) :=
  let w1 := s.takeWhile isWordChar
  if w1 = [] then none
  else
    let r1 := s.drop w1.length
    let r2 := dropWs r1
    if r2.length = r1.length then none
    else
      let name := r2.takeWhile isWordChar
      if name = [] then none
      else
        match dropWs (r2.drop name.length) with
        | '(' :: r4 =>
          (match r4.dropWhile (fun c => c ≠ ')') with
           | ')' :: r6 =>
             (match dropWs r6 with
              | '{' :: r7 => some (name, r7)
              | _ => none)
           | _ => none)
        | _ => none

/-- Unanchored `g`-scan collecting captures (Python pattern, no boundary). -/
def collectF (f : List Char → Option (List Char × List Char)) : Nat → List Char → List (List Char)
  | 0, _ => []
  | _ + 1, [] => []
  | n + 1, c :: cs =>
    match f (c :: cs) with
    | some (name, rest) => name :: collectF f n rest
    | none => collectF f n cs

/-- Word-boundary `g`-scan collecting captures (C pattern; matches end in
`{`, a non-word character, represented by `'('` as in `countBoundF`). -/
def collectBoundF (f : List Char → Option (List Char × List Char)) :
    Nat → Option Char → List Char → List (List Char)
  | 0, _, _ => []
  | _ + 1, _, [] => []
  | n + 1, prev, c :: cs =>
    let boundary := match prev with
      | none => true
      | some p => !isWordChar p
    if boundary then
      match f (c :: cs) with
      | some (name, rest) => name :: collectBoundF f n (some '(') rest
      | none => collectBoundF f n (some c) cs
    else collectBoundF f n (some c) cs

/-- `` new RegExp(`\\b${funcName}\\s*\\(`, 'g') `` at the current position. -/
def tryCall (name : List Char) (s : List Char) : Option (List Char) :=
  match matchCS name s with
  | none => none
  | some r =>
    match dropWs r with
    | '(' :: r2 => some r2
    | _ => none

/-- `detectRecursion`: a collected function name called more than once. -/
def detectRecursion (code : List Char) : Bool :=
  let names := collectF tryPyDef code.length code ++
    collectBoundF tryCFunc code.length none code
  names.any (fun name => countBoundF (tryCall name) code.length none code > 1)

structure ComplexityEstimate where
  best : List Char
  worst : List Char
  average : List Char
  explanation : List Char
deriving DecidableEq

/-- `calculateComplexity`: the decision table, top to bottom, first match
wins. -/
def calculateComplexity (p : LoopPatterns) (hasRecursion : Bool) : ComplexityEstimate :=
  if p.simpleLoops = 0 ∧ p.nestedLoops = 0 ∧ p.halvingLoops = 0 ∧
      p.multiplyingLoops = 0 ∧ hasRecursion = false then
    ⟨tl "O(1)", tl "O(1)", tl "O(1)",
     tl "No loops or recursion detected - constant time operations"⟩
  else if p.halvingLoops > 0 ∨ p.multiplyingLoops > 0 then
    if p.nestedLoops > 0 then
      ⟨tl "O(n log n)", tl "O(n log n)", tl "O(n log n)",
       tl "Nested loop with logarithmic pattern (like merge sort)"⟩
    else
      ⟨tl "O(log n)", tl "O(log n)", tl "O(log n)",
       tl "Loop divides/multiplies by 2 each iteration (logarithmic)"⟩
  else if p.nestedLoops > 0 then
    let depth := p.nestedLoops + 1
    let cstr := if depth = 2 then tl "O(n²)"
      else tl "O(n^" ++ (toString depth).toList ++ tl ")"
    ⟨cstr, cstr, cstr, (toString depth).toList ++ tl " levels of nested loops detected"⟩
  else if p.simpleLoops > 0 then
    ⟨tl "O(n)", tl "O(n)", tl "O(n)",
     (toString p.simpleLoops).toList ++ tl " linear loop(s) detected"⟩
  else if hasRecursion then
    ⟨tl "O(n)", tl "O(2^n)", tl "O(n) to O(2^n)",
     tl "Recursion detected - complexity depends on the recursion pattern"⟩
  else
    ⟨tl "O(1)", tl "O(n)", tl "O(n)", tl "Unable to determine exact complexity"⟩

/-- `analyzeComplexity` from `complexityAnalyzer.js`. -/
def analyzeComplexity (code : List Char) : ComplexityEstimate :=
  let cleanCode := removeStrings code
  calculateComplexity (detectLoopPatterns cleanCode) (detectRecursion cleanCode)

/-- Classic bubble-sort shape: two syntactically nested `for` loops. -/
def bubbleCode : List Char :=
  tl "for (i = 0; i < n; i++) \x7b\n  for (j = 0; j < n - i - 1; j++) \x7b\n    if (arr[j] > arr[j+1]) \x7b\n      temp = arr[j];\n      arr[j] = arr[j+1];\n      arr[j+1] = temp;\n    \x7d\n  \x7d\n\x7d"

/-- Straight-line code: no loops, no halving/doubling, no recursion. -/
def noLoopCode : List Char := tl "x = 1;\ny = x + 3;"

/-! ## Heuristic error detector (`errorDetector.js`) -/

/-- A detected error: `{ type, description, line?, severity }`. -/
structure DetectedError where
  type : List Char
  description : List Char
  line : Option Nat
  severity : List Char
deriving DecidableEq

/-- `code.split('\n')`. -/
def splitLines : List Char → List (List Char)
  | [] => [[]]
  | c :: cs =>
    if c = '\n' then [] :: splitLines cs
    else
      match splitLines cs with
      | l :: ls => (c :: l) :: ls
      | [] => [[c]]

/-- Does a predicate match at some position (suffix) of the string? -/
def existsAt (f : List Char → Bool) : List Char → Bool
  | [] => f []
  | c :: cs => f (c :: cs) || existsAt f cs

/-- Does `f` match at some position whose preceding character is a word
boundary (start of string or non-word character)? -/
def hasBoundAux (f : List Char → Bool) : Option Char → List Char → Bool
  | _, [] => false
  | prev, c :: cs =>
    ((match prev with
      | none => true
      | some p => !isWordChar p) && f (c :: cs)) || hasBoundAux f (some c) cs

def hasBound (f : List Char → Bool) (s : List Char) : Bool := hasBoundAux f none s

/-- `/\bword\b/gi`-style test (word given lowercase). -/
def hasWordCI (w : List Char) (s : List Char) : Bool :=
  hasBound (fun t =>
    match matchCI w t with
    | some [] => true
    | some (d :: _) => !isWordChar d
    | none => false) s

/-- `/\bword\b/`-style case-sensitive test. -/
def hasWordCS (w : List Char) (s : List Char) : Bool :=
  hasBound (fun t =>
    match matchCS w t with
    | some [] => true
    | some (d :: _) => !isWordChar d
    | none => false) s

/-- Rendering of the `checkBracketBalance` message strings. -/
def joinCommaChars : List Char → List Char
  | [] => []
  | [c] => [c]
  | c :: rest => c :: ',' :: ' ' :: joinCommaChars rest

def balanceMessage : BalanceResult → List Char
  | .balanced => []
  | .unexpected c => tl "Unexpected '" ++ [c] ++ tl "'"
  | .mismatched e c => tl "Expected '" ++ [e] ++ tl "' but found '" ++ [c] ++ tl "'"
  | .unclosed os => tl "Unclosed: " ++ joinCommaChars os

/-- The fixed typo table (`pattern word`, `fix`). -/
def typoList : List (List Char × List Char) :=
  [(tl "pirnt", tl "print"), (tl "retrun", tl "return"), (tl "funciton", tl "function"),
   (tl "vraible", tl "variable"), (tl "lenght", tl "length"), (tl "widht", tl "width")]

/-- `/while\s*\(\s*(true|1|True)\s*\)/` at the current position. -/
def whileTrueAt (s : List Char) : Bool :=
  match matchCS (tl "while") s with
  | none => false
  | some r =>
    match dropWs r with
    | '(' :: r2 =>
      let r3 := dropWs r2
      let r4opt := match matchCS (tl "true") r3 with
        | some rr => some rr
        | none =>
          match matchCS (tl "1") r3 with
          | some rr => some rr
          | none => matchCS (tl "True") r3
      (match r4opt with
       | some r4 =>
         (match dropWs r4 with
          | ')' :: _ => true
          | _ => false)
       | none => false)
    | _ => false

/-- `detectCommonErrors`: bracket balance, typo table, infinite-loop scan. -/
def detectCommonErrors (code : List Char) (lines : List (List Char)) : List DetectedError :=
  (match checkBracketBalance code with
   | .balanced => []
   | r => [⟨tl "syntax", tl "Unbalanced bracket: " ++ balanceMessage r, none, tl "error"⟩]) ++
  typoList.filterMap (fun pr =>
    if hasWordCI pr.1 code then
      some ⟨tl "typo", tl "Possible typo: Did you mean '" ++ pr.2 ++ tl "'?", none, tl "warning"⟩
    else none) ++
  (lines.enum.filterMap fun pr =>
    if existsAt whileTrueAt pr.2 then
      let nextLines := List.intercalate ['\n'] ((lines.drop pr.1).take 10)
      if hasWordCS (tl "break") nextLines then none
      else some ⟨tl "logic",
        tl "Potential infinite loop: while(true) without visible break statement",
        some (pr.1 + 1), tl "warning"⟩
    else none)

/-- Python statement-header keywords, in source order. -/
def pyHeaderKws : List (List Char) :=
  [tl "if", tl "elif", tl "else", tl "for", tl "while", tl "def", tl "class",
   tl "try", tl "except", tl "finally", tl "with"]

/-- `/^\s*(if|elif|...|with)\b[^:]*$/.test(line)`. -/
def pyHeaderNoColon (line : List Char) : Bool :=
  let rest := dropWs line
  pyHeaderKws.any fun kw =>
    match matchCS kw rest with
    | some [] => true
    | some (d :: r) => !isWordChar d && (d :: r).all (fun c => c ≠ ':')
    | none => false

def jsEndsWith (l : List Char) (c : Char) : Bool := l.getLast? = some c

/-- `[^=!<>]=(?!=)` somewhere in the given tail. -/
def condAssignTail : List Char → Bool
  | [] => false
  | [_] => false
  | a :: b :: rest =>
    (b = '=' && !(a = '=' ∨ a = '!' ∨ a = '<' ∨ a = '>') &&
      (match rest with
       | '=' :: _ => false
       | _ => true)) || condAssignTail (b :: rest)

/-- `/\b(if|elif|while)\s+.*[^=!<>]=(?!=)/.test(line)`. -/
def pyCondAssign (line : List Char) : Bool :=
  hasBound (fun t =>
    [tl "if", tl "elif", tl "while"].any fun kw =>
      match matchCS kw t with
      | some (w :: r) => jsIsWs w && condAssignTail r
      | _ => false) line

/-- After `\s+`, a character other than `(` (`[^(]`), allowing the extra
whitespace to be eaten by the `\s+` itself. -/
def wsNonParen : List Char → Bool
  | [] => false
  | c :: cs => (c ≠ '(') || (jsIsWs c && wsNonParen cs)

/-- `\s+[^(]` at the current position. -/
def wsThenNonParen : List Char → Bool
  | [] => false
  | w :: rest => jsIsWs w && wsNonParen rest

/-- `/\bprint\s+[^(]/.test(line)`. -/
def printNoParen (line : List Char) : Bool :=
  hasBound (fun t =>
    match matchCS (tl "print") t with
    | some r => wsThenNonParen r
    | none => false) line

/-- `/\bprint\s*$/.test(line)`. -/
def printAtEnd (line : List Char) : Bool :=
  hasBound (fun t =>
    match matchCS (tl "print") t with
    | some r => r.all jsIsWs
    | none => false) line

/-- `/^\t+ /.test(line) || /^ +\t/.test(line)`. -/
def mixedIndent (line : List Char) : Bool :=
  (match line with
   | '\t' :: _ => (line.dropWhile (fun c => c = '\t')).head? = some ' '
   | _ => false) ||
  (match line with
   | ' ' :: _ => (line.dropWhile (fun c => c = ' ')).head? = some '\t'
   | _ => false)

/-- The per-line checks of `detectPythonErrors`, in source order. -/
def pyLineErrors (idx : Nat) (line : List Char) : List DetectedError :=
  (if pyHeaderNoColon line && !jsEndsWith (jsTrim line) ':' && !line.contains '#' then
    [⟨tl "syntax", tl "Python requires a colon (:) at the end of this statement",
      some (idx + 1), tl "error"⟩]
   else []) ++
  (if pyCondAssign line then
    [⟨tl "logic", tl "Are you assigning (=) when you meant to compare (==)?",
      some (idx + 1), tl "warning"⟩]
   else []) ++
  (if printNoParen line && !printAtEnd line then
    [⟨tl "syntax", tl "In Python 3, print is a function: use print() with parentheses",
      some (idx + 1), tl "error"⟩]
   else []) ++
  (if mixedIndent line then
    [⟨tl "style", tl "Mixing tabs and spaces for indentation can cause issues",
      some (idx + 1), tl "warning"⟩]
   else [])

def detectPythonErrors (lines : List (List Char)) : List DetectedError :=
  lines.enum.flatMap fun pr => pyLineErrors pr.1 pr.2

/-- The operator class `[=+\-*/]`. -/
def assignOps : List Char := ['=', '+', '-', '*', '/']

/-- `/\w+\s*[=+\-*/]/.test(s)`. -/
def hasAssignOp : List Char → Bool
  | [] => false
  | c :: cs =>
    (isWordChar c &&
      (match dropWs cs with
       | d :: _ => assignOps.contains d
       | [] => false)) || hasAssignOp cs

/-- Does the (trimmed) line start with one of the keywords (after `^\s*`,
with `\s*` after — so no trailing boundary is required)? -/
def startsWithKw (kws : List (List Char)) (trimmed : List Char) : Bool :=
  kws.any fun kw => (matchCS kw (dropWs trimmed)).isSome

def cControlKws : List (List Char) :=
  [tl "if", tl "else", tl "for", tl "while", tl "switch", tl "do"]

/-- The missing-semicolon heuristic of `detectCErrors`, on the trimmed line. -/
def cMissingSemicolon (trimmed : List Char) : Bool :=
  decide (trimmed ≠ []) &&
  !jsEndsWith trimmed ';' && !jsEndsWith trimmed '{' && !jsEndsWith trimmed '}' &&
  !jsEndsWith trimmed ':' &&
  !(matchCS (tl "//") trimmed).isSome && !(matchCS (tl "#") trimmed).isSome &&
  !(matchCS (tl "/*") trimmed).isSome && !(matchCS (tl "*") trimmed).isSome &&
  !startsWithKw cControlKws trimmed &&
  hasAssignOp trimmed

/-- `[^)]*[^=!<>]=(?!=)[^=]` scanned inside a condition head (the
`[^=!<>]` character is not constrained to be inside the parentheses). -/
def condCAux : List Char → Bool
  | a :: b :: c :: rest =>
    (b = '=' && !(a = '=' ∨ a = '!' ∨ a = '<' ∨ a = '>') && c ≠ '=') ||
    (a ≠ ')' && condCAux (b :: c :: rest))
  | _ => false

/-- `/\b(if|while)\s*\([^)]*[^=!<>]=(?!=)[^=]/` at the current position. -/
def cCondAssignAt (t : List Char) : Bool :=
  [tl "if", tl "while"].any fun kw =>
    match matchCS kw t with
    | some r =>
      (match dropWs r with
       | '(' :: r2 => condCAux r2
       | _ => false)
    | none => false

def digitsToNat (ds : List Char) : Nat := (digitsVal ds none).getD 0

/-- `/\w+\s*\[\s*(\d+)\s*\]/` at the current position: the captured size. -/
def tryArrayDecl (s : List Char) : Option Nat :=
  let w := s.takeWhile isWordChar
  if w = [] then none
  else
    match dropWs (s.drop w.length) with
    | '[' :: r2 =>
      let r3 := dropWs r2
      let ds := r3.takeWhile Char.isDigit
      if ds = [] then none
      else
        match dropWs (r3.drop ds.length) with
        | ']' :: _ => some (digitsToNat ds)
        | _ => none
    | _ => none

/-- `code.match(/\w+\s*\[\s*(\d+)\s*\]/)`: first match in the whole code. -/
def firstArrayDecl : List Char → Option Nat
  | [] => none
  | c :: cs =>
    match tryArrayDecl (c :: cs) with
    | some n => some n
    | none => firstArrayDecl cs

/-- `` new RegExp(`\\[\\s*${size}\\s*\\]`) `` at the current position. -/
def sizeAccessAt (numStr : List Char) (s : List Char) : Bool :=
  match s with
  | '[' :: r =>
    (match matchCS numStr (dropWs r) with
     | some r2 =>
       (match dropWs r2 with
        | ']' :: _ => true
        | _ => false)
     | none => false)
  | _ => false

def sizeAccessTest (n : Nat) (line : List Char) : Bool :=
  existsAt (sizeAccessAt (toString n).toList) line

/-- The out-of-bounds message (`size - 1` can be `-1` for size 0). -/
def boundsMsg (n : Nat) : List Char :=
  tl "Array index " ++ (toString n).toList ++
  tl " is out of bounds for array of size " ++ (toString n).toList ++
  tl " (valid indices: 0 to " ++ (toString ((n : Int) - 1)).toList ++ tl ")"

/-- The per-line checks of `detectCErrors`, in source order. -/
def cLineErrors (code : List Char) (idx : Nat) (line : List Char) : List DetectedError :=
  let trimmed := jsTrim line
  (if cMissingSemicolon trimmed then
    [⟨tl "syntax", tl "This line might be missing a semicolon", some (idx + 1), tl "warning"⟩]
   else []) ++
  (if hasBound cCondAssignAt line then
    [⟨tl "logic", tl "Using assignment (=) instead of comparison (==) in condition",
      some (idx + 1), tl "warning"⟩]
   else []) ++
  (match firstArrayDecl code with
   | some n =>
     if sizeAccessTest n line then [⟨tl "logic", boundsMsg n, some (idx + 1), tl "error"⟩]
     else []
   | none => [])

def detectCErrorsAux (code : List Char) : Nat → List (List Char) → List DetectedError
  | _, [] => []
  | idx, line :: rest => cLineErrors code idx line ++ detectCErrorsAux code (idx + 1) rest

def hasIncludeDirective (code : List Char) : Bool :=
  existsAt (fun t => (matchCS (tl "#include") t).isSome) code

/-- `/\bmain\s*\(/.test(code)`. -/
def hasMainCall (code : List Char) : Bool :=
  hasBound (fun t =>
    match matchCS (tl "main") t with
    | some r =>
      (match dropWs r with
       | '(' :: _ => true
       | _ => false)
    | none => false) code

def detectCErrors (code : List Char) (lines : List (List Char)) : List DetectedError :=
  detectCErrorsAux code 0 lines ++
  (if !hasIncludeDirective code && decide (code.length > 50) then
    (if !hasMainCall code then
      [⟨tl "structure", tl "C/C++ programs need a main() function as the entry point",
        none, tl "info"⟩]
     else [])
   else [])

/-- `\s` then (possibly after more whitespace) a word character: the
`\s+\w` tail shapes. -/
def wsWord : List Char → Bool
  | [] => false
  | c :: cs => isWordChar c || (jsIsWs c && wsWord cs)

/-- `\s+\w` at the current position. -/
def wsThenWordChar : List Char → Bool
  | [] => false
  | w :: rest => jsIsWs w && wsWord rest

/-- `/String\s+\w+/.test(code)` (no word boundary in the source regex). -/
def hasStringDecl (code : List Char) : Bool :=
  existsAt (fun t =>
    match matchCS (tl "String") t with
    | some r => wsThenWordChar r
    | none => false) code

/-- `/==\s*"/.test(line)`. -/
def eqeqQuote (line : List Char) : Bool :=
  existsAt (fun t =>
    match t with
    | '=' :: '=' :: r => (dropWs r).head? = some dq
    | _ => false) line

def javaControlKws : List (List Char) :=
  [tl "if", tl "else", tl "for", tl "while", tl "switch", tl "do", tl "try",
   tl "catch", tl "finally", tl "class", tl "interface", tl "enum"]

def javaModifierKws : List (List Char) :=
  [tl "public", tl "private", tl "protected", tl "static", tl "final", tl "abstract"]

def javaTypeKws : List (List Char) := [tl "class", tl "interface", tl "enum"]

/-- `/^\s*(public|private|protected|static|final|abstract)\s+(class|interface|enum)/`. -/
def startsModifierType (trimmed : List Char) : Bool :=
  javaModifierKws.any fun m =>
    match matchCS m (dropWs trimmed) with
    | some (w :: r) => jsIsWs w && javaTypeKws.any (fun k => (matchCS k (dropWs (w :: r))).isSome)
    | _ => false

/-- The missing-semicolon heuristic of `detectJavaErrors`, on the trimmed line. -/
def javaMissingSemicolon (trimmed : List Char) : Bool :=
  decide (trimmed ≠ []) &&
  !jsEndsWith trimmed ';' && !jsEndsWith trimmed '{' && !jsEndsWith trimmed '}' &&
  !(matchCS (tl "//") trimmed).isSome && !(matchCS (tl "/*") trimmed).isSome &&
  !(matchCS (tl "*") trimmed).isSome && !(matchCS (tl "@") trimmed).isSome &&
  !startsWithKw javaControlKws trimmed &&
  !startsModifierType trimmed &&
  hasAssignOp trimmed

def javaLineErrors (code : List Char) (idx : Nat) (line : List Char) : List DetectedError :=
  (if hasStringDecl code && eqeqQuote line then
    [⟨tl "logic", tl "In Java, compare Strings using .equals() not ==",
      some (idx + 1), tl "error"⟩]
   else []) ++
  (if javaMissingSemicolon (jsTrim line) then
    [⟨tl "syntax", tl "This line might be missing a semicolon", some (idx + 1), tl "warning"⟩]
   else [])

def detectJavaErrorsAux (code : List Char) : Nat → List (List Char) → List DetectedError
  | _, [] => []
  | idx, line :: rest => javaLineErrors code idx line ++ detectJavaErrorsAux code (idx + 1) rest

/-- A sequence of literal words separated by `\s+` at the current position. -/
def wordsSeqAt : List (List Char) → List Char → Bool
  | [], _ => true
  | [w], s => (matchCS w s).isSome
  | w :: ws, s =>
    match matchCS w s with
    | some (c :: r) => jsIsWs c && wordsSeqAt ws (dropWs (c :: r))
    | _ => false

/-- `/\bclass\s+\w+/.test(code)`. -/
def hasClassDecl (code : List Char) : Bool :=
  hasBound (fun t =>
    match matchCS (tl "class") t with
    | some r => wsThenWordChar r
    | none => false) code

/-- `/public\s+static\s+void\s+main/.test(code)`. -/
def hasPSVM (code : List Char) : Bool :=
  existsAt (wordsSeqAt [tl "public", tl "static", tl "void", tl "main"]) code

def detectJavaErrors (code : List Char) (lines : List (List Char)) : List DetectedError :=
  detectJavaErrorsAux code 0 lines ++
  (if !hasClassDecl code && decide (code.length > 50) then
    [⟨tl "structure", tl "Java code must be inside a class", none, tl "info"⟩]
   else []) ++
  (if hasClassDecl code && !hasPSVM code then
    [⟨tl "structure",
      tl "Java programs need a main method: public static void main(String[] args)",
      none, tl "info"⟩]
   else [])

/-- `detectErrors` from `errorDetector.js`: common checks, then the
language-specific checks selected by `language.toLowerCase()`. -/
def detectErrors (code : List Char) (language : List Char) : List DetectedError :=
  let lines := splitLines code
  let l := language.map Char.toLower
  detectCommonErrors code lines ++
  (if l = tl "python" then detectPythonErrors lines
   else if l = tl "c" ∨ l = tl "cpp" then detectCErrors code lines
   else if l = tl "java" then detectJavaErrors code lines
   else [])

/-! ## Learning state (`progress.js`) and fallback responses (`aiService.js`)

The `sessionStartTime` field (a wall-clock timestamp) is omitted from the
state record; no claim concerns it. -/

/-- JS `String.prototype.includes` (substring test). -/
def hasSubstr (w : List Char) (s : List Char) : Bool :=
  existsAt (fun t => (matchCS w t).isSome) s

structure LearningState where
  strugglingConcepts : List (List Char)
  masteredConcepts : List (List Char)
  hintsGivenThisSession : Nat
  sameErrorRepeated : Bool
  previousExplanations : List (List Char)
  lastErrorType : Option (List Char)
  currentUnderstanding : List Char
  errorHistory : List (List Char)
deriving DecidableEq

/-- The parts of an AI response read by `updateLearningState`. -/
structure AIResponseMeta where
  conceptsTaught : Option (List (List Char))
  reply : Option (List Char)
deriving DecidableEq

/-- `if (wasHintRequest) state.hintsGivenThisSession += 1`. -/
def trackHints (s : LearningState) (wasHintRequest : Bool) : LearningState :=
  if wasHintRequest then { s with hintsGivenThisSession := s.hintsGivenThisSession + 1 }
  else s

/-- The `if (errorType)` block: bounded error history (max 10, oldest out),
repeated-error flag, struggling concepts, last error type. -/
def trackError (s : LearningState) (errorType : Option (List Char)) : LearningState :=
  match errorType with
  | none => s
  | some t =>
    if t = [] then s
    else
      let hist := s.errorHistory ++ [t]
      let hist2 := if hist.length > 10 then hist.tail else hist
      let s2 := { s with errorHistory := hist2 }
      let s3 :=
        if s2.lastErrorType = some t then
          let s2a := { s2 with sameErrorRepeated := true }
          if s2a.strugglingConcepts.contains t then s2a
          else { s2a with strugglingConcepts := s2a.strugglingConcepts ++ [t] }
        else { s2 with sameErrorRepeated := false }
      { s3 with lastErrorType := some t }

/-- One step of the `conceptsTaught.forEach` loop. -/
def applyConcept (s : LearningState) (concept : List Char) : LearningState :=
  match s.strugglingConcepts.indexOf? concept with
  | none => s
  | some idx =>
    let cnt := (s.previousExplanations.filter (fun e =>
      hasSubstr (concept.map Char.toLower) (e.map Char.toLower))).length
    if cnt ≥ 3 then
      let s2 := { s with strugglingConcepts := s.strugglingConcepts.eraseIdx idx }
      if s2.masteredConcepts.contains concept then s2
      else { s2 with masteredConcepts := s2.masteredConcepts ++ [concept] }
    else s

/-- `if (response?.conceptsTaught && Array.isArray(...)) forEach(...)`. -/
def applyConcepts (s : LearningState) (response : Option AIResponseMeta) : LearningState :=
  match response with
  | some r =>
    (match r.conceptsTaught with
     | some l => l.foldl applyConcept s
     | none => s)
  | none => s

/-- `if (response?.reply)`: push a 100-character summary, bounded at 5. -/
def pushExplanation (s : LearningState) (response : Option AIResponseMeta) : LearningState :=
  match response with
  | some r =>
    (match r.reply with
     | some rep =>
       if rep = [] then s
       else
         let summary := rep.take 100 ++ tl "..."
         let pe := s.previousExplanations ++ [summary]
         { s with previousExplanations := if pe.length > 5 then pe.tail else pe }
     | none => s)
  | none => s

/-- The final understanding-level update. -/
def updateUnderstanding (s : LearningState) : LearningState :=
  if s.hintsGivenThisSession > 5 ∨ s.sameErrorRepeated then
    { s with currentUnderstanding := tl "struggling" }
  else if s.masteredConcepts.length > s.strugglingConcepts.length then
    { s with currentUnderstanding := tl "confident" }
  else { s with currentUnderstanding := tl "learning" }

/-- `updateLearningState` from `progress.js`, as a pure function of the
stored state (the localStorage read/write becomes the in/out state). -/
def updateLearningState (s : LearningState) (response : Option AIResponseMeta)
    (errorType : Option (List Char)) (wasHintRequest : Bool) : LearningState :=
  updateUnderstanding
    (pushExplanation (applyConcepts (trackError (trackHints s wasHintRequest) errorType) response)
      response)

/-- `resetSessionState`: session fields cleared, mastered concepts kept. -/
def resetSessionState (s : LearningState) : LearningState :=
  { s with hintsGivenThisSession := 0
           sameErrorRepeated := false
           previousExplanations := []
           lastErrorType := none
           errorHistory := [] }

/-- `markConceptMastered`. -/
def markConceptMastered (s : LearningState) (concept : List Char) : LearningState :=
  let s2 := if s.masteredConcepts.contains concept then s
    else { s with masteredConcepts := s.masteredConcepts ++ [concept] }
  match s2.strugglingConcepts.indexOf? concept with
  | some idx => { s2 with strugglingConcepts := s2.strugglingConcepts.eraseIdx idx }
  | none => s2

/-- `getNextConceptFromError`. -/
def getNextConceptFromError (errorType : List Char) : List Char :=
  if errorType = tl "syntax" then tl "language-syntax-rules"
  else if errorType = tl "logic" then tl "debugging-techniques"
  else if errorType = tl "typo" then tl "code-reading-skills"
  else if errorType = tl "structure" then tl "program-organization"
  else tl "fundamentals"

/-- `getSyntaxGuidance(errorType, language)` (the JS `syntax` field text). -/
def getSyntaxGuidance (errorType : List Char) (language : List Char) : List Char :=
  let lang := language.map Char.toLower
  let langSpecific : Option (List Char) :=
    if lang = tl "python" then
      (if errorType = tl "syntax" then
        some (tl "Python blocks require consistent indentation and a colon after statements.")
       else if errorType = tl "structure" then
        some (tl "Functions and classes must be indented consistently under their headers.")
       else none)
    else if lang = tl "c" ∨ lang = tl "cpp" then
      (if errorType = tl "syntax" then
        some (tl ((if lang = tl "c" then "C" else "C++") ++
          " statements typically end with semicolons; blocks use braces."))
       else if errorType = tl "structure" then
        some (tl ((if lang = tl "c" then "C" else "C++") ++ " programs require a main entry point."))
       else none)
    else if lang = tl "java" then
      (if errorType = tl "syntax" then
        some (tl "Java statements typically end with semicolons; blocks use braces.")
       else if errorType = tl "structure" then
        some (tl "Java code must be inside a class; entry point is a main method.")
       else none)
    else none
  match langSpecific with
  | some t => t
  | none =>
    if errorType = tl "general" then
      tl "Review statement boundaries and required symbols for this language."
    else if errorType = tl "syntax" then
      tl "Check required punctuation and block delimiters for this construct."
    else if errorType = tl "logic" then
      tl "Syntax may be correct, but verify operators and conditions match intent."
    else if errorType = tl "typo" then
      tl "Keywords and identifiers must be spelled exactly."
    else if errorType = tl "structure" then
      tl "Confirm required program structure for this language."
    else tl "Review statement boundaries and required symbols for this language."

/-- `getNextStep(errorType, level)`. -/
def getNextStep (errorType : List Char) (level : List Char) : List Char :=
  let steps : List (List Char) :=
    if errorType = tl "general" then
      [tl "Trace the flow with a small example and describe each step in words.",
       tl "Write down what the code should do at each step, then compare it to what it does.",
       tl "Identify the first point where actual behavior diverges from expected behavior."]
    else if errorType = tl "syntax" then
      [tl "Find the exact line where the parser would stop and confirm the required token.",
       tl "Check the line end and block delimiters around the error area.",
       tl "Verify the statement format against the language's standard pattern."]
    else if errorType = tl "logic" then
      [tl "Pick a sample input and simulate each step, noting variable values.",
       tl "Compare your intended condition with the operator you used.",
       tl "List the expected output for a simple case and verify the path matches."]
    else if errorType = tl "typo" then
      [tl "Compare each keyword with the official spelling in the docs.",
       tl "Scan for near-miss spellings of functions or variables.",
       tl "Search for repeated identifiers and confirm they match exactly."]
    else if errorType = tl "structure" then
      [tl "List the required structural elements and check which one is missing.",
       tl "Confirm the entry point signature for this language.",
       tl "Ensure the code is wrapped in the required container (function/class)."]
    else
      [tl "Trace the flow with a small example and describe each step in words.",
       tl "Write down what the code should do at each step, then compare it to what it does.",
       tl "Identify the first point where actual behavior diverges from expected behavior."]
  steps.getD (min (if level = tl "complex" then 1 else 0) (steps.length - 1)) []

/-- `getExplanationForError(error, language, level)`:
`explanations[error.type]?.[level] || explanations.logic[level]`. -/
def getExplanationForError (errorType : List Char) (level : List Char) : Option (List Char) :=
  let logicRow : Option (List Char) :=
    if level = tl "basic" then
      some (tl "The code will run, but it might not do what you expect! It's like following a recipe but mixing up 'teaspoon' and 'tablespoon'.")
    else if level = tl "moderate" then
      some (tl "There's a logical issue here. The code executes, but the behavior may not match your intent.")
    else if level = tl "complex" then
      some (tl "Logic error identified. The semantics of your code differ from the likely intended behavior.")
    else none
  let row : Option (List Char) :=
    if errorType = tl "syntax" then
      (if level = tl "basic" then
        some (tl "There's a small grammar mistake in your code. Just like English has rules about periods and commas, programming languages have rules about certain symbols.")
       else if level = tl "moderate" then
        some (tl "There's a syntax error in your code. The computer needs certain symbols to understand where statements begin and end.")
       else if level = tl "complex" then
        some (tl "Syntax error detected. The parser expects specific tokens at certain positions in your code.")
       else none)
    else if errorType = tl "logic" then logicRow
    else if errorType = tl "typo" then
      (if level = tl "basic" then
        some (tl "Oops! Looks like there might be a spelling mistake. Computers are very picky about exact spelling!")
       else if level = tl "moderate" then
        some (tl "There appears to be a typo. Programming languages require exact keyword spelling.")
       else if level = tl "complex" then
        some (tl "Potential identifier typo detected. Verify your keyword and function name spellings.")
       else none)
    else if errorType = tl "structure" then
      (if level = tl "basic" then
        some (tl "Your code is missing some important building blocks. Think of it like a house - you need a foundation before you can add the rooms!")
       else if level = tl "moderate" then
        some (tl "The code structure is incomplete. Most programs need certain required elements to work.")
       else if level = tl "complex" then
        some (tl "Structural element missing. Ensure your code has the required program entry point and declarations.")
       else none)
    else if errorType = tl "style" then
      (if level = tl "basic" then
        some (tl "Your code will work, but it could be cleaner! Good style makes code easier to read and find mistakes.")
       else if level = tl "moderate" then
        some (tl "Style issue detected. While not breaking functionality, clean code prevents future bugs.")
       else if level = tl "complex" then
        some (tl "Code style inconsistency. Maintaining consistent formatting aids maintainability.")
       else none)
    else none
  match row with
  | some t => some t
  | none => logicRow

/-- `getAnalogyForError(error)`. -/
def getAnalogyForError (errorType : List Char) : List Char :=
  if errorType = tl "syntax" then
    tl "It's like forgetting a period at the end of a sentence. The reader (computer) gets confused about where one thought ends and another begins."
  else if errorType = tl "logic" then
    tl "Imagine giving someone directions to your house, but accidentally telling them to turn left when you meant right. They'll follow your directions perfectly... to the wrong place!"
  else if errorType = tl "typo" then
    tl "Like writing 'recieve' instead of 'receive' - you know what you meant, but spell-check doesn't!"
  else if errorType = tl "structure" then
    tl "Think of building with LEGO - you need the base plate before you can stack blocks on top."
  else if errorType = tl "style" then
    tl "Like having a messy room - you can still find things, but it's much harder than if everything was organized."
  else
    tl "Imagine giving someone directions to your house, but accidentally telling them to turn left when you meant right. They'll follow your directions perfectly... to the wrong place!"

/-- `generateQuestionResponse`. -/
def generateQuestionResponse (question : List Char) (hintLevel : Int)
    (learningState : Option LearningState) : List Char :=
  let lowerQ := question.map Char.toLower
  let hasIn := fun (w : String) => hasSubstr (tl w) lowerQ
  if hasIn "analyze" || hasIn "issue" || hasIn "wrong" then
    tl "Alright, let me take a look at what's happening here. I'll walk you through this step by step." ++
    (match learningState with
     | some ls => if ls.previousExplanations.length > 0 then tl " Building on what we discussed before..." else []
     | none => []) ++
    tl " Start by reading through your code line by line - what does each line actually do? Does it match up with what you're trying to accomplish?"
  else if hasIn "explain" || hasIn "what" || hasIn "does" then
    tl "Sure, let's break this down together. Instead of just telling you what it does, let me guide you through understanding it." ++
    (match learningState with
     | some ls =>
       (match ls.masteredConcepts with
        | m :: _ => tl " You already understand " ++ m ++ tl ", so let's build on that."
        | [] => [])
     | none => []) ++
    tl " Try tracing through the code mentally - what happens first? Then what? What are the values at each step?"
  else if hasIn "hint" then
    let hints : List (List Char) :=
      [tl "Here's something to think about - read your code from the top. Does each line make sense in the context of what you're trying to do?",
       tl "Think about the inputs and outputs. What goes in? What should come out? Are you handling that correctly?",
       tl "Consider the edge cases. What happens with empty input? Very large numbers? Unexpected values?",
       tl "Try tracing through your code with a specific example. Does it actually produce what you expect?",
       tl "Break the problem into smaller steps. Which step isn't quite working the way you want?"]
    let hint := (jsIndex hints (min (hintLevel - 1) ((hints.length : Int) - 1))).getD []
    match learningState with
    | some ls =>
      if ls.sameErrorRepeated then
        tl "Let's try a different approach. " ++ hint ++
        tl " Sometimes stepping back and thinking about the problem differently helps."
      else hint
    | none => hint
  else if hasIn "logic" then
    tl "Let's think about the logic together. What are you actually trying to accomplish? Now look at your code - does each step make sense towards that goal? Sometimes it helps to write out in plain English what you want to happen, then compare that to what your code actually does."
  else
    tl "Great question! Let me help you think through this. The key to really learning this is working through it yourself." ++
    (match learningState with
     | some ls => if ls.hintsGivenThisSession > 2 then
        tl " I notice you've asked for a few hints already - that's totally fine! Let's approach this from a different angle."
       else []
     | none => []) ++
    tl " What's your initial thought about what's happening here? Let's talk through it together."

/-- The fallback response object (`syntaxHint` models the JS `syntax` field;
absent fields are `none`). -/
structure FallbackResponse where
  reply : Option (List Char)
  explanation : Option (List Char)
  analogy : Option (List Char)
  hint : Option (List Char)
  syntaxHint : Option (List Char)
  nextStep : Option (List Char)
  conceptsTaught : List (List Char)
  suggestedNextConcept : Option (List Char)
deriving DecidableEq

/-- The no-user-question part of `getFallbackAnalysis`. -/
def fallbackFromErrors (language level : List Char) (hintLevel : Int)
    (detectedErrors : List DetectedError) (learningState : Option LearningState) :
    FallbackResponse :=
  match detectedErrors with
  | [] =>
    let explanation :=
      tl "Your code looks structurally sound! Let's think about the logic together." ++
      (match learningState with
       | some ls =>
         (match ls.strugglingConcepts with
          | sc :: _ => tl " Since you've been working on " ++ sc ++
              tl ", let's make sure that part is working correctly."
          | [] => tl " Consider: What should happen at each step? Are you handling all edge cases?")
       | none => tl " Consider: What should happen at each step? Are you handling all edge cases?")
    { reply := none
      explanation := some explanation
      analogy := some (tl "Like proofreading a letter - the spelling might be correct, but does the message make sense?")
      hint := getGenericHint hintLevel
      syntaxHint := some (getSyntaxGuidance (tl "general") language)
      nextStep := some (getNextStep (tl "general") level)
      conceptsTaught := [tl "code-review", tl "logic-analysis"]
      suggestedNextConcept := some (tl "edge-cases") }
  | mainError :: _ =>
    { reply := none
      explanation := getExplanationForError mainError.type level
      analogy := some (getAnalogyForError mainError.type)
      hint := getHintForError mainError.type hintLevel
      syntaxHint := some (getSyntaxGuidance mainError.type language)
      nextStep := some (getNextStep mainError.type level)
      conceptsTaught := [mainError.type]
      suggestedNextConcept := some (getNextConceptFromError mainError.type) }

/-- `getFallbackAnalysis` (the `code` argument is unused by the source). -/
def getFallbackAnalysis (language level : List Char) (hintLevel : Int)
    (detectedErrors : List DetectedError) (userQuestion : Option (List Char))
    (learningState : Option LearningState) : FallbackResponse :=
  match userQuestion with
  | some q =>
    if q = [] then fallbackFromErrors language level hintLevel detectedErrors learningState
    else
      { reply := some (generateQuestionResponse q hintLevel learningState)
        explanation := none
        analogy := none
        hint := none
        syntaxHint := some (getSyntaxGuidance (tl "general") language)
        nextStep := some (getNextStep (tl "general") level)
        conceptsTaught := [tl "general-guidance"]
        suggestedNextConcept := some (tl "problem-decomposition") }
  | none => fallbackFromErrors language level hintLevel detectedErrors learningState

/-- `normalizeLanguage` from `validators.js`. -/
def normalizeLanguage (language : List Char) : List Char :=
  let l := language.map Char.toLower
  if l = tl "python" ∨ l = tl "py" then tl "python"
  else if l = tl "c" then tl "c"
  else if l = tl "cpp" ∨ l = tl "c++" then tl "cpp"
  else if l = tl "java" then tl "java"
  else l

/-- `isCodeRelatedQuestion`. -/
def isCodeRelatedQuestion (q : List Char) : Bool :=
  let ql := jsTrim (q.map Char.toLower)
  !([tl "hi", tl "hello", tl "hey", tl "hi!", tl "hello!", tl "hey!"].contains ql)

/-- The result of `analyzeCode` on the no-API-key (fallback) path: either
the canned greeting object or the fallback analysis with `hintLevel` merged. -/
inductive AnalyzeOutcome where
  | greeting (reply : List Char) : AnalyzeOutcome
  | analyzed (response : FallbackResponse) (hintLevel : Int) : AnalyzeOutcome
deriving DecidableEq

/-- The canned greeting reply of `buildGeneralResponse`. -/
def greetingReply : List Char :=
  tl "Hey! 👋 I'm your coding mentor. What are you working on today?\n\n• Paste code and I'll explain it\n• Ask for help with a problem\n• Request hints when stuck\n\nWhat would you like to learn?"

/-- `analyzeCode` from `aiService.js` restricted to the heuristic path
(`groqClient` null, i.e. no API key configured). -/
def analyzeCodeFallback (code language level : List Char) (hintLevel : Int)
    (userQuestion : Option (List Char)) (learningState : Option LearningState) :
    AnalyzeOutcome :=
  let normalizedLang := normalizeLanguage language
  let codeText := jsTrim code
  let hasQuestion := match userQuestion with
    | some q => decide ((jsTrim q) ≠ [])
    | none => false
  let greeting : Option (List Char) :=
    match userQuestion with
    | some q =>
      if hasQuestion && !isCodeRelatedQuestion q then
        (if [tl "hi", tl "hello", tl "hey", tl "hi!", tl "hello!", tl "hey!"].contains
            (jsTrim (q.map Char.toLower)) then
          some greetingReply
         else none)
      else none
    | none => none
  match greeting with
  | some g => .greeting g
  | none =>
    let detectedErrors := if codeText ≠ [] then detectErrors codeText normalizedLang else []
    .analyzed
      (getFallbackAnalysis normalizedLang level hintLevel detectedErrors userQuestion learningState)
      hintLevel

/-- The hint field of an analyze outcome. -/
def outcomeHint : AnalyzeOutcome → Option (List Char)
  | .greeting _ => none
  | .analyzed r _ => r.hint

/-- Balanced, well-nested bracket sequences (the property named by the spec). -/
inductive Balanced : List Char → Prop
  | nil : Balanced []
  | wrap {o c : Char} {b : List Char} :
      pairOf o = some c → Balanced b → Balanced (o :: b ++ [c])
  | append {a b : List Char} : Balanced a → Balanced b → Balanced (a ++ b)

theorem pairOf_inv {o c : Char} (h : pairOf o = some c) :
    pairOf c = none ∧ isCloser c = true := by
  unfold pairOf at h
  split_ifs at h
  · cases Option.some.inj h; exact ⟨by decide, by decide⟩
  · cases Option.some.inj h; exact ⟨by decide, by decide⟩
  · cases Option.some.inj h; exact ⟨by decide, by decide⟩

theorem isCloser_pairOf {c : Char} (h : isCloser c = true) : pairOf c = none := by
  unfold isCloser at h
  simp only [Bool.decide_or, Bool.or_eq_true, decide_eq_true_eq] at h
  rcases h with rfl | rfl | rfl <;> decide

/-- The scan ignores non-bracket characters. -/
theorem scanBrackets_filter : ∀ (s stack : List Char),
    scanBrackets s stack = scanBrackets (extractBrackets s) stack := by
  intro s
  induction s with
  | nil => intro stack; rfl
  | cons c cs ih =>
    intro stack
    by_cases hop : (pairOf c).isSome
    · obtain ⟨e, he⟩ := Option.isSome_iff_exists.mp hop
      have hf : extractBrackets (c :: cs) = c :: extractBrackets cs := by
        simp [extractBrackets, hop]
      rw [hf]
      simp only [scanBrackets, he]
      exact ih (c :: stack)
    · have hnone : pairOf c = none := Option.not_isSome_iff_eq_none.mp hop
      by_cases hcl : isCloser c
      · have hf : extractBrackets (c :: cs) = c :: extractBrackets cs := by
          simp [extractBrackets, hcl]
        rw [hf]
        simp only [scanBrackets, hnone, hcl, if_true]
        cases stack with
        | nil => rfl
        | cons o rest =>
          by_cases hp : pairOf o = some c
          · simp only [hp, if_pos rfl]
            exact ih rest
          · simp [hp]
      · have hf : extractBrackets (c :: cs) = extractBrackets cs := by
          simp [extractBrackets, hcl, hnone]
        rw [hf]
        simp only [scanBrackets, hnone, hcl, if_false]
        exact ih stack

/-- Scanning a balanced segment returns to the same stack. -/
theorem scanBrackets_balanced {b : List Char} (hb : Balanced b) :
    ∀ (t stack : List Char), scanBrackets (b ++ t) stack = scanBrackets t stack := by
  induction hb with
  | nil => intro t stack; rfl
  | wrap ho hbb ih =>
    rename_i o c bb
    intro t stack
    have hshape : (o :: bb ++ [c]) ++ t = o :: (bb ++ (c :: t)) := by simp
    rw [hshape]
    simp only [scanBrackets, ho]
    rw [ih (c :: t) (o :: stack)]
    obtain ⟨hcn, hccl⟩ := pairOf_inv ho
    simp only [scanBrackets, hcn, hccl, ho, if_true, if_pos rfl]
  | append ha hb iha ihb =>
    intro t stack
    rename_i aa bb2
    have hshape : (aa ++ bb2) ++ t = aa ++ (bb2 ++ t) := by simp
    rw [hshape, iha, ihb]

/-- Witness for C6 at error type "style" (which falls back to the logic
progression) and hintLevel 7: both functions return the fifth, most direct
hint. -/
theorem C6_hint_clamp_witness :
    getHintForError (tl "style") 7 =
      some (tl "You might be using a single equals when you need a double equals, or vice versa.") ∧
    getGenericHint 7 =
      some (tl "Break the problem into smaller steps. Which step isn't working correctly?") := by
  have hmain := C6_hint_clamp (tl "style") 7 (by norm_num) (by norm_num)
  obtain ⟨-, -, -, hfin⟩ := hmain
  obtain ⟨ha, hb⟩ := hfin (by norm_num)
  refine ⟨?_, ?_⟩
  · rw [ha]; rfl
  · rw [hb]; rfl

/-- C5: with string contents stripped, (a) a code string whose brackets form
a balanced well-nested sequence scans as balanced; (b) a closer following a
balanced prefix gives the unexpected-closer report; (c) an opener followed
only by balanced material gives the unclosed-at-end report; (d) a closer not
matching the innermost open opener gives the mismatched-closer report. -/
theorem C5_bracket_balance (code u v w : List Char) (o c e : Char) :
    (Balanced (extractBrackets (stripQuoted code)) → checkBracketBalance code = .balanced) ∧
    (extractBrackets (stripQuoted code) = u ++ c :: v → Balanced u → isCloser c = true →
      checkBracketBalance code = .unexpected c) ∧
    (extractBrackets (stripQuoted code) = u ++ o :: v → Balanced u → Balanced v →
      pairOf o = some e → checkBracketBalance code = .unclosed [o]) ∧
    (extractBrackets (stripQuoted code) = u ++ o :: (w ++ c :: v) → Balanced u → Balanced w →
      pairOf o = some e → isCloser c = true → c ≠ e →
      checkBracketBalance code = .mismatched e c) := by
  refine ⟨?_, ?_, ?_, ?_⟩
  · intro hb
    unfold checkBracketBalance
    rw [scanBrackets_filter]
    have hsb := scanBrackets_balanced hb [] []
    rw [List.append_nil] at hsb
    rw [hsb]
    rfl
  · intro hx hu hcl
    unfold checkBracketBalance
    rw [scanBrackets_filter, hx, scanBrackets_balanced hu (c :: v) []]
    simp only [scanBrackets, isCloser_pairOf hcl, hcl, if_true]
  · intro hx hu hv ho
    unfold checkBracketBalance
    rw [scanBrackets_filter, hx, scanBrackets_balanced hu (o :: v) []]
    simp only [scanBrackets, ho]
    have hsv := scanBrackets_balanced hv [] [o]
    rw [List.append_nil] at hsv
    rw [hsv]
    rfl
  · intro hx hu hw ho hcl hne
    unfold checkBracketBalance
    rw [scanBrackets_filter, hx, scanBrackets_balanced hu (o :: (w ++ c :: v)) []]
    simp only [scanBrackets, ho]
    rw [scanBrackets_balanced hw (c :: v) [o]]
    simp only [scanBrackets, isCloser_pairOf hcl, hcl, if_true, ho]
    rw [if_neg (by simp [Ne.symm hne])]
    simp [ho]

/-- Witness for C5 at four concrete code strings, one per report kind: a
balanced snippet (with a bracket hidden inside a string literal), a stray
closer, an unclosed opener, and a mismatched closer. -/
theorem C5_bracket_balance_witness :
    checkBracketBalance (tl "if (a[i] == \"x)\") { b[j] = 1 }") = .balanced ∧
    checkBracketBalance (tl "a)b") = .unexpected ')' ∧
    checkBracketBalance (tl "(x") = .unclosed ['('] ∧
    checkBracketBalance (tl "f(]") = .mismatched ')' ']' := by
  have bal0 : Balanced ([] : List Char) := Balanced.nil
  have balSq : Balanced (tl "[]") := @Balanced.wrap '[' ']' [] (by decide) Balanced.nil
  have balP : Balanced (tl "([])") := @Balanced.wrap '(' ')' (tl "[]") (by decide) balSq
  have balB : Balanced (tl "{[]}") := @Balanced.wrap '{' '}' (tl "[]") (by decide) balSq
  have balAll : Balanced (tl "([]){[]}") := Balanced.append balP balB
  refine ⟨?_, ?_, ?_, ?_⟩
  · refine (C5_bracket_balance (tl "if (a[i] == \"x)\") { b[j] = 1 }") [] [] [] ' ' ' ' ' ').1 ?_
    have hE : extractBrackets (stripQuoted (tl "if (a[i] == \"x)\") { b[j] = 1 }")) =
        tl "([]){[]}" := by decide
    rw [hE]
    exact balAll
  · exact (C5_bracket_balance (tl "a)b") [] [] [] ' ' ')' ' ').2.1 (by decide) bal0 (by decide)
  · exact (C5_bracket_balance (tl "(x") [] [] [] '(' ' ' ')').2.2.1 (by decide) bal0 bal0 (by decide)
  · exact (C5_bracket_balance (tl "f(]") [] [] [] '(' ']' ')').2.2.2 (by decide) bal0 bal0
      (by decide) (by decide) (by decide)

/-- C7: the bubble-sort-shaped input (two syntactically nested `for` loops,
no halving/doubling pattern, no recursion) gets best = worst = average =
"O(n²)" from the decision table (nested row, depth 2), and the loop-free,
recursion-free input gets the constant-time first row. -/
theorem C7_complexity :
    analyzeComplexity bubbleCode =
      ⟨tl "O(n²)", tl "O(n²)", tl "O(n²)", tl "2 levels of nested loops detected"⟩ ∧
    analyzeComplexity noLoopCode =
      ⟨tl "O(1)", tl "O(1)", tl "O(1)",
       tl "No loops or recursion detected - constant time operations"⟩ := by
  constructor
  · decide
  · decide

/-- The C8 end-to-end scenario code: missing colon after `for`. -/
def c8code : List Char := tl "for i in range(10)\n  print(i)"

/-- C8: on the heuristic path, `detectErrors` on the missing-colon Python
snippet yields exactly one syntax error referencing line 1, and the fallback
response's hint for hintLevel 1 is the first entry of the syntax hint
progression. -/
theorem C8_fallback_colon_hint :
    detectErrors c8code (tl "python") =
      [⟨tl "syntax", tl "Python requires a colon (:) at the end of this statement",
        some 1, tl "error"⟩] ∧
    outcomeHint (analyzeCodeFallback c8code (tl "python") (tl "basic") 1 none none) =
      some (tl "Look carefully at the end of your lines...") ∧
    syntaxHintProgression[0]? = some (tl "Look carefully at the end of your lines...") := by
  refine ⟨by decide, by decide, by decide⟩

theorem trackHints_fields (s : LearningState) (w : Bool) :
    (trackHints s w).previousExplanations = s.previousExplanations ∧
    (trackHints s w).errorHistory = s.errorHistory := by
  unfold trackHints
  split <;> exact ⟨rfl, rfl⟩

theorem trackError_pe (s : LearningState) (et : Option (List Char)) :
    (trackError s et).previousExplanations = s.previousExplanations := by
  unfold trackError
  cases et with
  | none => rfl
  | some t =>
    dsimp only
    split_ifs <;> rfl

theorem trackError_eh_none (s : LearningState) :
    (trackError s none).errorHistory = s.errorHistory := rfl

theorem trackError_eh_append {s : LearningState} {t : List Char} (ht : t ≠ [])
    (hlen : s.errorHistory.length < 10) :
    (trackError s (some t)).errorHistory = s.errorHistory ++ [t] := by
  unfold trackError
  dsimp only
  have hcond : ¬ (s.errorHistory ++ [t]).length > 10 := by
    simp only [List.length_append, List.length_singleton]
    omega
  rw [if_neg ht, if_neg hcond]
  split_ifs <;> rfl

theorem trackError_eh_shift {s : LearningState} {t : List Char} (ht : t ≠ [])
    (hlen : s.errorHistory.length = 10) :
    (trackError s (some t)).errorHistory = s.errorHistory.tail ++ [t] := by
  unfold trackError
  dsimp only
  have hcond : (s.errorHistory ++ [t]).length > 10 := by
    simp only [List.length_append, List.length_singleton]
    omega
  have htail : (s.errorHistory ++ [t]).tail = s.errorHistory.tail ++ [t] := by
    cases hE : s.errorHistory with
    | nil => rw [hE] at hlen; simp at hlen
    | cons a rest => simp
  rw [if_neg ht, if_pos hcond, htail]
  split_ifs <;> rfl

theorem trackError_eh_bound {s : LearningState} {et : Option (List Char)}
    (hh : s.errorHistory.length ≤ 10) :
    (trackError s et).errorHistory.length ≤ 10 := by
  cases et with
  | none => rw [trackError_eh_none]; exact hh
  | some t =>
    by_cases ht : t = []
    · subst ht
      unfold trackError
      dsimp only
      rw [if_pos rfl]
      exact hh
    · by_cases hl : s.errorHistory.length = 10
      · rw [trackError_eh_shift ht hl]
        simp only [List.length_append, List.length_singleton, List.length_tail]
        omega
      · rw [trackError_eh_append ht (by omega)]
        simp only [List.length_append, List.length_singleton]
        omega

theorem applyConcept_fields (s : LearningState) (c : List Char) :
    (applyConcept s c).previousExplanations = s.previousExplanations ∧
    (applyConcept s c).errorHistory = s.errorHistory := by
  unfold applyConcept
  cases hidx : s.strugglingConcepts.indexOf? c with
  | none => simp [hidx]
  | some idx =>
    simp only [hidx]
    split_ifs <;> exact ⟨rfl, rfl⟩

theorem foldl_applyConcept_fields (l : List (List Char)) : ∀ s : LearningState,
    ((l.foldl applyConcept s).previousExplanations = s.previousExplanations ∧
     (l.foldl applyConcept s).errorHistory = s.errorHistory) := by
  induction l with
  | nil => intro s; exact ⟨rfl, rfl⟩
  | cons c cs ih =>
    intro s
    rw [List.foldl_cons]
    obtain ⟨h1, h2⟩ := ih (applyConcept s c)
    obtain ⟨g1, g2⟩ := applyConcept_fields s c
    exact ⟨h1.trans g1, h2.trans g2⟩

theorem applyConcepts_fields (s : LearningState) (resp : Option AIResponseMeta) :
    (applyConcepts s resp).previousExplanations = s.previousExplanations ∧
    (applyConcepts s resp).errorHistory = s.errorHistory := by
  unfold applyConcepts
  cases resp with
  | none => exact ⟨rfl, rfl⟩
  | some r =>
    obtain ⟨ct, rep⟩ := r
    cases ct with
    | none => exact ⟨rfl, rfl⟩
    | some l => exact foldl_applyConcept_fields l s

theorem pushExplanation_eh (s : LearningState) (resp : Option AIResponseMeta) :
    (pushExplanation s resp).errorHistory = s.errorHistory := by
  unfold pushExplanation
  cases resp with
  | none => rfl
  | some r =>
    obtain ⟨ct, rep⟩ := r
    cases rep with
    | none => rfl
    | some rr =>
      dsimp only
      split_ifs <;> rfl

theorem pushExplanation_pe_none (s : LearningState) :
    (pushExplanation s none).previousExplanations = s.previousExplanations := rfl

theorem pushExplanation_pe_append {s : LearningState} {ct : Option (List (List Char))}
    {rep : List Char} (hr : rep ≠ []) (hlen : s.previousExplanations.length < 5) :
    (pushExplanation s (some ⟨ct, some rep⟩)).previousExplanations =
      s.previousExplanations ++ [rep.take 100 ++ tl "..."] := by
  unfold pushExplanation
  dsimp only
  have hcond : ¬ (s.previousExplanations ++ [rep.take 100 ++ tl "..."]).length > 5 := by
    simp only [List.length_append, List.length_singleton]
    omega
  rw [if_neg hr, if_neg hcond]

theorem pushExplanation_pe_shift {s : LearningState} {ct : Option (List (List Char))}
    {rep : List Char} (hr : rep ≠ []) (hlen : s.previousExplanations.length = 5) :
    (pushExplanation s (some ⟨ct, some rep⟩)).previousExplanations =
      s.previousExplanations.tail ++ [rep.take 100 ++ tl "..."] := by
  unfold pushExplanation
  dsimp only
  have hcond : (s.previousExplanations ++ [rep.take 100 ++ tl "..."]).length > 5 := by
    simp only [List.length_append, List.length_singleton]
    omega
  have htail : (s.previousExplanations ++ [rep.take 100 ++ tl "..."]).tail =
      s.previousExplanations.tail ++ [rep.take 100 ++ tl "..."] := by
    cases hE : s.previousExplanations with
    | nil => rw [hE] at hlen; simp at hlen
    | cons a rest => simp
  rw [if_neg hr, if_pos hcond, htail]

theorem pushExplanation_pe_bound {s : LearningState} {resp : Option AIResponseMeta}
    (hp : s.previousExplanations.length ≤ 5) :
    (pushExplanation s resp).previousExplanations.length ≤ 5 := by
  cases resp with
  | none => exact hp
  | some r =>
    obtain ⟨ct, rep⟩ := r
    cases rep with
    | none => exact hp
    | some rr =>
      by_cases hr : rr = []
      · subst hr
        unfold pushExplanation
        dsimp only
        rw [if_pos rfl]
        exact hp
      · by_cases hl : s.previousExplanations.length = 5
        · rw [pushExplanation_pe_shift hr hl]
          simp only [List.length_append, List.length_singleton, List.length_tail]
          omega
        · rw [pushExplanation_pe_append hr (by omega)]
          simp only [List.length_append, List.length_singleton]
          omega

theorem updateUnderstanding_fields (s : LearningState) :
    (updateUnderstanding s).previousExplanations = s.previousExplanations ∧
    (updateUnderstanding s).errorHistory = s.errorHistory := by
  unfold updateUnderstanding
  split_ifs <;> exact ⟨rfl, rfl⟩

theorem markConceptMastered_fields (s : LearningState) (concept : List Char) :
    (markConceptMastered s concept).previousExplanations = s.previousExplanations ∧
    (markConceptMastered s concept).errorHistory = s.errorHistory := by
  unfold markConceptMastered
  dsimp only
  split_ifs <;>
    (cases hidx : s.strugglingConcepts.indexOf? concept with
     | none => simp [hidx]
     | some idx => simp [hidx])

/-- C9: every learning-state operation preserves the bounds (explanations
≤ 5, error history ≤ 10), and when a push would exceed the bound the oldest
entry is evicted first (bounded FIFO); below the bound, entries are simply
appended. -/
theorem C9_learning_state_bounds (s : LearningState) (resp : Option AIResponseMeta)
    (et : Option (List Char)) (whr : Bool) (concept : List Char)
    (hp : s.previousExplanations.length ≤ 5) (hh : s.errorHistory.length ≤ 10) :
    ((updateLearningState s resp et whr).previousExplanations.length ≤ 5 ∧
     (updateLearningState s resp et whr).errorHistory.length ≤ 10) ∧
    ((resetSessionState s).previousExplanations.length ≤ 5 ∧
     (resetSessionState s).errorHistory.length ≤ 10) ∧
    ((markConceptMastered s concept).previousExplanations.length ≤ 5 ∧
     (markConceptMastered s concept).errorHistory.length ≤ 10) ∧
    (∀ t, et = some t → t ≠ [] →
      ((s.errorHistory.length = 10 →
         (updateLearningState s resp et whr).errorHistory = s.errorHistory.tail ++ [t]) ∧
       (s.errorHistory.length < 10 →
         (updateLearningState s resp et whr).errorHistory = s.errorHistory ++ [t]))) ∧
    (∀ ct rep, resp = some ⟨ct, some rep⟩ → rep ≠ [] →
      ((s.previousExplanations.length = 5 →
         (updateLearningState s resp et whr).previousExplanations =
           s.previousExplanations.tail ++ [rep.take 100 ++ tl "..."]) ∧
       (s.previousExplanations.length < 5 →
         (updateLearningState s resp et whr).previousExplanations =
           s.previousExplanations ++ [rep.take 100 ++ tl "..."]))) := by
  have h1 := trackHints_fields s whr
  have hupe : ∀ s4 : LearningState,
      (updateUnderstanding s4).previousExplanations = s4.previousExplanations :=
    fun s4 => (updateUnderstanding_fields s4).1
  have hueh : ∀ s4 : LearningState,
      (updateUnderstanding s4).errorHistory = s4.errorHistory :=
    fun s4 => (updateUnderstanding_fields s4).2
  refine ⟨⟨?_, ?_⟩, ⟨by simp [resetSessionState], by simp [resetSessionState]⟩,
    ⟨?_, ?_⟩, ?_, ?_⟩
  · unfold updateLearningState
    rw [hupe]
    apply pushExplanation_pe_bound
    rw [(applyConcepts_fields _ _).1, trackError_pe, h1.1]
    exact hp
  · unfold updateLearningState
    rw [hueh, pushExplanation_eh, (applyConcepts_fields _ _).2]
    apply trackError_eh_bound
    rw [h1.2]
    exact hh
  · rw [(markConceptMastered_fields s concept).1]
    exact hp
  · rw [(markConceptMastered_fields s concept).2]
    exact hh
  · intro t hets htne
    subst hets
    constructor
    · intro hlen
      unfold updateLearningState
      rw [hueh, pushExplanation_eh, (applyConcepts_fields _ _).2]
      rw [trackError_eh_shift htne (by rw [h1.2]; exact hlen), h1.2]
    · intro hlen
      unfold updateLearningState
      rw [hueh, pushExplanation_eh, (applyConcepts_fields _ _).2]
      rw [trackError_eh_append htne (by rw [h1.2]; exact hlen), h1.2]
  · intro ct rep hresp hrne
    subst hresp
    constructor
    · intro hlen
      unfold updateLearningState
      rw [hupe]
      rw [pushExplanation_pe_shift hrne
        (by rw [(applyConcepts_fields _ _).1, trackError_pe, h1.1]; exact hlen)]
      rw [(applyConcepts_fields _ _).1, trackError_pe, h1.1]
    · intro hlen
      unfold updateLearningState
      rw [hupe]
      rw [pushExplanation_pe_append hrne
        (by rw [(applyConcepts_fields _ _).1, trackError_pe, h1.1]; exact hlen)]
      rw [(applyConcepts_fields _ _).1, trackError_pe, h1.1]

/-- A learning state at both bounds: 5 explanations, 10 history entries. -/
def exFullState : LearningState :=
  ⟨[], [], 0, false,
   [tl "p1", tl "p2", tl "p3", tl "p4", tl "p5"],
   none, tl "learning",
   [tl "e1", tl "e2", tl "e3", tl "e4", tl "e5",
    tl "e6", tl "e7", tl "e8", tl "e9", tl "e10"]⟩

/-- Witness for C9: updating a state at both bounds evicts the oldest
history entry and the oldest explanation (bounded FIFO). -/
theorem C9_learning_state_bounds_witness :
    (updateLearningState exFullState (some ⟨none, some (tl "ok")⟩)
        (some (tl "syntax")) false).errorHistory =
      [tl "e2", tl "e3", tl "e4", tl "e5", tl "e6",
       tl "e7", tl "e8", tl "e9", tl "e10", tl "syntax"] ∧
    (updateLearningState exFullState (some ⟨none, some (tl "ok")⟩)
        (some (tl "syntax")) false).previousExplanations =
      [tl "p2", tl "p3", tl "p4", tl "p5", tl "ok..."] := by
  have h := C9_learning_state_bounds exFullState (some ⟨none, some (tl "ok")⟩)
    (some (tl "syntax")) false [] (by decide) (by decide)
  obtain ⟨-, -, -, hfifo, hpe⟩ := h
  have h1 := (hfifo (tl "syntax") rfl (by decide)).1 (by decide)
  have h2 := (hpe none (tl "ok") rfl (by decide)).1 (by decide)
  constructor
  · rw [h1]; decide
  · rw [h2]; decide

theorem detectCErrorsAux_mem (code : List Char) : ∀ (ls : List (List Char)) (start i : Nat)
    (line : List Char), ls[i]? = some line →
    ∀ e ∈ cLineErrors code (start + i) line, e ∈ detectCErrorsAux code start ls := by
  intro ls
  induction ls with
  | nil => intro start i line h; simp at h
  | cons l rest ih =>
    intro start i line h e he
    cases i with
    | zero =>
      obtain rfl : l = line := by simpa using h
      unfold detectCErrorsAux
      exact List.mem_append_left _ (by simpa using he)
    | succ j =>
      have hj : rest[j]? = some line := by simpa using h
      have he2 : e ∈ cLineErrors code ((start + 1) + j) line := by
        rw [show (start + 1) + j = start + (j + 1) by omega]
        exact he
      unfold detectCErrorsAux
      exact List.mem_append_right _ (ih (start + 1) j line hj e he2)

/-- C10: whenever the first `\w+\s*\[\s*(\d+)\s*\]` match in a C/C++ code
string yields size `N`, every line on which `\[\s*N\s*\]` tests true — the
declaration line included, even though a declaration is not an access —
contributes an error-severity `logic` entry reporting index `N` out of
bounds for an array of size `N`. -/
theorem C10_array_bounds (code line : List Char) (i n : Nat)
    (hdecl : firstArrayDecl code = some n)
    (hline : (splitLines code)[i]? = some line)
    (hacc : sizeAccessTest n line = true) :
    (⟨tl "logic", boundsMsg n, some (i + 1), tl "error"⟩ : DetectedError) ∈
      detectErrors code (tl "c") := by
  unfold detectErrors
  dsimp only
  rw [if_neg (by decide), if_pos (by decide)]
  apply List.mem_append_right
  unfold detectCErrors
  apply List.mem_append_left
  have hmem := detectCErrorsAux_mem code (splitLines code) 0 i line hline
  apply hmem
  unfold cLineErrors
  dsimp only
  apply List.mem_append_right
  simp only [hdecl, hacc, if_true, Nat.zero_add]
  exact List.mem_singleton.mpr rfl

/-- The C10 witness code: a fixed-size declaration and a same-index access. -/
def c10code : List Char := tl "int a[3];\nb = a[3];"

/-- Witness for C10: both the declaration line (line 1) and the access line
(line 2) of `int a[3]; b = a[3];` get the out-of-bounds logic error. -/
theorem C10_array_bounds_witness :
    (⟨tl "logic", boundsMsg 3, some 1, tl "error"⟩ : DetectedError) ∈
      detectErrors c10code (tl "c") ∧
    (⟨tl "logic", boundsMsg 3, some 2, tl "error"⟩ : DetectedError) ∈
      detectErrors c10code (tl "c") :=
  ⟨C10_array_bounds c10code (tl "int a[3];") 0 3 (by decide) (by decide) (by decide),
   C10_array_bounds c10code (tl "b = a[3];") 1 3 (by decide) (by decide) (by decide)⟩

end Tutor
